import Mathlib

/-!
UESVON: sparse voxel octree generation

A shallow embedding of `ASVONManager` (`Source/UESVON/Private/SVONManager.cpp`):
the first occupancy pass, the bottom-up rasterisation of the layers with their
parent and first-child indices, the leaf masks, and the neighbour linking.

Conventions of the embedding.

* Machine integers are natural numbers or integers. Node counts come out of
  `FMath::Pow` as floats and are returned as `int32`: `toInt32` is that
  conversion, exact while the value is below `2 ^ 31` and `INT_MIN` beyond, so a
  loop bounded by an out-of-range count runs zero times. The `int32` product in
  `AllocateLeafNodes` wraps around (`wrapInt32`). `nodeindex` values that may
  hold `-1` are `Int`.
* `FVector` components are exact rationals in place of `float`.
* The collision query `GetWorld()->OverlapBlockingTestByChannel` on a sphere is a
  function argument `world : FVector → ℚ → Bool` (position, radius).
* Debug drawing and the timing code around `Generate` have no effect on the
  state and are left out.
* `TArray` is `List`; indexing out of range reads a default element and a write
  out of range changes nothing.
* The headers that declare `SVONNode`, `SVONLink`, `SVONLeafNode` and `dirs`, and
  the Morton codec of libmorton, are modelled from the specification; each such
  definition says so.
-/

namespace UESVON

/-! ## Spatial codec -/

/-- Modelled from the spec: `libmorton/morton.h` is included by the source but is
not among the files at hand. Bit interleaving of three coordinates over `n` bit
positions: bit `k` of `x`, `y`, `z` goes to bit `3k`, `3k+1`, `3k+2`. -/
def interleave3 : Nat → Nat → Nat → Nat → Nat
  | 0, _, _, _ => 0
  | n + 1, x, y, z =>
    x % 2 + 2 * (y % 2) + 4 * (z % 2) + 8 * interleave3 n (x / 2) (y / 2) (z / 2)

/-- Modelled from the spec: the inverse bit de-interleaving over `n` positions. -/
def deinterleave3 : Nat → Nat → Nat × Nat × Nat
  | 0, _ => (0, 0, 0)
  | n + 1, c =>
    let r := deinterleave3 n (c / 8)
    (c % 2 + 2 * r.1, c / 2 % 2 + 2 * r.2.1, c / 4 % 2 + 2 * r.2.2)

/-- Modelled from the spec: `morton3D_64_encode(x, y, z)`, the 64-bit Morton code
of a lattice coordinate, 21 bits per component. -/
def morton3D_64_encode (x y z : Nat) : Nat := interleave3 21 x y z

/-- Modelled from the spec: `morton3D_64_decode(code, x, y, z)`, returning the
three output parameters as a triple. -/
def morton3D_64_decode (code : Nat) : Nat × Nat × Nat := deinterleave3 21 code

/-! ## Data model -/

/-- Unreal `FVector`, with exact rational components. -/
structure FVector where
  X : ℚ
  Y : ℚ
  Z : ℚ
  deriving DecidableEq

/-- The `FVector(float)` constructor: all three components equal. -/
def FVector.splat (f : ℚ) : FVector := ⟨f, f, f⟩

/-- Component-wise `FVector` addition. -/
def FVector.add (a b : FVector) : FVector := ⟨a.X + b.X, a.Y + b.Y, a.Z + b.Z⟩

/-- Component-wise `FVector` subtraction. -/
def FVector.sub (a b : FVector) : FVector := ⟨a.X - b.X, a.Y - b.Y, a.Z - b.Z⟩

instance : Inhabited FVector := ⟨⟨0, 0, 0⟩⟩

/-- Unreal `FIntVector`. -/
structure FIntVector where
  X : Int
  Y : Int
  Z : Int
  deriving DecidableEq

/-- Modelled from the spec: the table `dirs` of the six cardinal unit offsets
(±x, ±y, ±z) is declared in a header that is not among the files at hand. -/
def dirs : List FIntVector :=
  [⟨1, 0, 0⟩, ⟨-1, 0, 0⟩, ⟨0, 1, 0⟩, ⟨0, -1, 0⟩, ⟨0, 0, 1⟩, ⟨0, 0, -1⟩]

/-- Modelled from the spec: `SVONLink` is declared in a header that is not among
the files at hand. A link is the invalid sentinel or names a node by layer index
and node index. `SetInvalid()` stores `invalid`; the two assignments to
`myLayerIndex` and `myNodeIndex` store `node`. -/
inductive SVONLink where
  | invalid : SVONLink
  | node (myLayerIndex myNodeIndex : Nat) : SVONLink
  deriving DecidableEq

/-- Modelled from the spec: `SVONNode` is declared in a header that is not among
the files at hand. Absent indices are `-1`; links start invalid. -/
structure SVONNode where
  myCode : Nat
  myPosition : FVector
  myParentIndex : Int
  myFirstChildIndex : Int
  myNeighbours : List SVONLink
  deriving DecidableEq

instance : Inhabited SVONNode :=
  ⟨{ myCode := 0, myPosition := default, myParentIndex := -1, myFirstChildIndex := -1,
     myNeighbours := List.replicate 6 SVONLink.invalid }⟩

/-- Modelled from the spec: `SVONLeafNode` is declared in a header that is not
among the files at hand. A 64-bit occupancy mask over the 4×4×4 sub-grid. -/
structure SVONLeafNode where
  myVoxelGrid : Nat
  deriving DecidableEq

instance : Inhabited SVONLeafNode := ⟨⟨0⟩⟩

/-- Modelled from the spec: `SetNodeAt(x, y, z)` sets the bit of the sub-cell,
addressed by its Morton index. -/
def SVONLeafNode.SetNodeAt (leaf : SVONLeafNode) (x y z : Nat) : SVONLeafNode :=
  ⟨(leaf.myVoxelGrid ||| (1 <<< morton3D_64_encode x y z)) % 2 ^ 64⟩

/-- Modelled from the spec: `GetNodeAt(x, y, z)` of a leaf tests the bit of the
sub-cell. -/
def SVONLeafNode.GetNodeAt (leaf : SVONLeafNode) (x y z : Nat) : Bool :=
  leaf.myVoxelGrid.testBit (morton3D_64_encode x y z)

/-- The collision query on a sphere: position and radius. -/
abbrev UWorld := FVector → ℚ → Bool

/-- The fields of `ASVONManager` that generation reads and writes. -/
structure ASVONManager where
  myVoxelPower : Nat
  myOrigin : FVector
  myExtent : FVector
  myNumLayers : Nat
  myBlockedIndices : List Nat
  myLayers : List (List SVONNode)
  myLeafNodes : List SVONLeafNode

/-- Element `i` of a node array. -/
def nodeAt (layer : List SVONNode) (i : Nat) : SVONNode := layer.getD i default

/-- In-place update of element `i` of an array. -/
def modifyAt {α : Type} (xs : List α) (i : Nat) (f : α → α) : List α :=
  match xs[i]? with
  | some a => xs.set i (f a)
  | none => xs

/-- `ASVONManager::GetLayer`. -/
def GetLayer (m : ASVONManager) (aLayer : Nat) : List SVONNode := m.myLayers.getD aLayer []

/-- Writing back the array that `GetLayer` returns by reference. -/
def setLayer (m : ASVONManager) (aLayer : Nat) (layer : List SVONNode) : ASVONManager :=
  { m with myLayers := m.myLayers.set aLayer layer }

/-- `ASVONManager::GetVoxelSize`. -/
def GetVoxelSize (m : ASVONManager) (aLayer : Nat) : ℚ :=
  (m.myExtent.X / 2 ^ m.myVoxelPower) * 2 ^ (aLayer + 1)

/-- The conversion of a non-negative float result to the `int32` that a function
returns: the value itself while it is below `2 ^ 31`, and `INT_MIN` beyond (the
result of the conversion instruction for an out-of-range value). -/
def toInt32 (v : Nat) : Int := if v < 2 ^ 31 then (v : Int) else -(2 ^ 31)

/-- The result of `int32` arithmetic: the exact value wrapped into
`[-2 ^ 31, 2 ^ 31)`. -/
def wrapInt32 (v : Int) : Int := (v + 2 ^ 31) % 2 ^ 32 - 2 ^ 31

/-- `ASVONManager::GetNodesPerSide`: `2 ^ (myVoxelPower - aLayer)` converted to
`int32`; for a negative exponent the float is below 1 and the result is `0`. -/
def GetNodesPerSide (m : ASVONManager) (aLayer : Nat) : Int :=
  if aLayer ≤ m.myVoxelPower then toInt32 (2 ^ (m.myVoxelPower - aLayer)) else 0

/-- `ASVONManager::GetNodesInLayer`: the cube of `2 ^ (myVoxelPower - aLayer)`
converted to `int32`; for a negative exponent the float is below 1 and the result
is `0`. -/
def GetNodesInLayer (m : ASVONManager) (aLayer : Nat) : Int :=
  if aLayer ≤ m.myVoxelPower then toInt32 ((2 ^ (m.myVoxelPower - aLayer)) ^ 3) else 0

/-- `ASVONManager::GetNodePosition`, returning the output parameter. -/
def GetNodePosition (m : ASVONManager) (aLayer : Nat) (aCode : Nat) : FVector :=
  let voxelSize := GetVoxelSize m aLayer
  let c := morton3D_64_decode aCode
  ((m.myOrigin.sub m.myExtent).add
    ⟨c.1 * voxelSize, c.2.1 * voxelSize, c.2.2 * voxelSize⟩).add
    (FVector.splat (voxelSize * (1 / 2)))

/-- `ASVONManager::AllocateLeafNodes`: the array is emptied and
`myBlockedIndices.Num() * 8` default leaves are added, the product being an
`int32`; a product that wraps to a negative count adds nothing here. -/
def AllocateLeafNodes (m : ASVONManager) : ASVONManager :=
  { m with myLeafNodes :=
      List.replicate (wrapInt32 ((m.myBlockedIndices.length : Int) * 8)).toNat default }

/-- One iteration of the loop of `FirstPassRasterize`. -/
def firstPassStep (world : UWorld) (m : ASVONManager) (blocked : List Nat) (i : Nat) :
    List Nat :=
  if world (GetNodePosition m 1 i) (GetVoxelSize m 1 * (1 / 2)) then blocked ++ [i]
  else blocked

/-- `ASVONManager::FirstPassRasterize`: the sweep over the layer-1 cells (`i`
from `0` while `i < numNodes`, that is `numNodes.toNat` times), then the
ascending sort. -/
def FirstPassRasterize (world : UWorld) (m : ASVONManager) : ASVONManager :=
  let numNodes := GetNodesInLayer m 1
  let blocked := (List.range numNodes.toNat).foldl (firstPassStep world m) m.myBlockedIndices
  { m with myBlockedIndices := blocked.insertionSort (fun a b => a < b) }

/-- One iteration of the loop of `RasterizeLeafNode`. -/
def rasterizeLeafCell (world : UWorld) (m : ASVONManager) (aOrigin : FVector)
    (aLeafIndex : Int) (leaves : List SVONLeafNode) (i : Nat) : List SVONLeafNode :=
  let c := morton3D_64_decode i
  let leafVoxelSize := GetVoxelSize m 0 * (1 / 4)
  let position := (aOrigin.add
    ⟨c.1 * leafVoxelSize, c.2.1 * leafVoxelSize, c.2.2 * leafVoxelSize⟩).add
    (FVector.splat (leafVoxelSize * (1 / 2)))
  if world position (leafVoxelSize * (1 / 2)) then
    modifyAt leaves aLeafIndex.toNat (fun leaf => leaf.SetNodeAt c.1 c.2.1 c.2.2)
  else leaves

/-- `ASVONManager::RasterizeLeafNode`. -/
def RasterizeLeafNode (world : UWorld) (m : ASVONManager) (aOrigin : FVector)
    (aLeafIndex : Int) : ASVONManager :=
  { m with myLeafNodes :=
      (List.range 64).foldl (rasterizeLeafCell world m aOrigin aLeafIndex) m.myLeafNodes }

/-- One iteration of the layer-0 loop of `RasterizeLayer`; the state is the
manager and the local `leafIndex`. The node is appended with the fields the
iteration gives it. -/
def rasterizeLayer0Step (world : UWorld) (acc : ASVONManager × Int) (i : Nat) :
    ASVONManager × Int :=
  let m := acc.1
  let leafIndex := acc.2
  if (i >>> 3) ∈ m.myBlockedIndices then
    let position := GetNodePosition m 0 i
    let leafOrigin := position.sub (FVector.splat (GetVoxelSize m 0 * (1 / 2)))
    let m1 := RasterizeLeafNode world m leafOrigin leafIndex
    let node : SVONNode :=
      { (default : SVONNode) with
        myCode := i, myPosition := position, myFirstChildIndex := leafIndex }
    (setLayer m1 0 (GetLayer m1 0 ++ [node]), leafIndex + 1)
  else acc

/-- The result of the loop of `IsAnyMemberBlocked`: the array of the layer
below, the output parameter and the flag. -/
structure MemberScan where
  lower : List SVONNode
  oFirstChildIndex : Int
  isBlocked : Bool

/-- The loop of `IsAnyMemberBlocked` over the nodes of the layer below, from
array index `i` on. -/
def memberScan (aCode : Nat) (aThisParentIndex : Int) :
    List SVONNode → Nat → Int → Bool → MemberScan
  | [], _, oFirstChildIndex, isBlocked => ⟨[], oFirstChildIndex, isBlocked⟩
  | node :: rest, i, oFirstChildIndex, isBlocked =>
    if node.myCode >>> 3 >>> 3 = aCode >>> 3 then
      if node.myCode >>> 3 = aCode then
        let r := memberScan aCode aThisParentIndex rest (i + 1)
          (if node.myCode % 8 = 0 then (i : Int) else oFirstChildIndex) true
        ⟨{ node with myParentIndex := aThisParentIndex } :: r.lower,
          r.oFirstChildIndex, r.isBlocked⟩
      else
        let r := memberScan aCode aThisParentIndex rest (i + 1) oFirstChildIndex true
        ⟨node :: r.lower, r.oFirstChildIndex, r.isBlocked⟩
    else
      let r := memberScan aCode aThisParentIndex rest (i + 1) oFirstChildIndex isBlocked
      ⟨node :: r.lower, r.oFirstChildIndex, r.isBlocked⟩

/-- `ASVONManager::IsAnyMemberBlocked`: the returned flag, the manager with the
parent indices written into layer `aLayer - 1`, and the output parameter. -/
def IsAnyMemberBlocked (m : ASVONManager) (aLayer : Nat) (aCode : Nat)
    (aThisParentIndex : Int) (oFirstChildIndex : Int) : Bool × ASVONManager × Int :=
  let r := memberScan aCode aThisParentIndex (GetLayer m (aLayer - 1)) 0 oFirstChildIndex false
  (r.isBlocked, setLayer m (aLayer - 1) r.lower, r.oFirstChildIndex)

/-- One iteration of the loop of `RasterizeLayer` for a layer above 0; the state
is the manager and the local `nodeCounter`. -/
def rasterizeUpperStep (aLayer : Nat) (acc : ASVONManager × Int) (i : Nat) :
    ASVONManager × Int :=
  let nodeCounter := acc.2
  let r := IsAnyMemberBlocked acc.1 aLayer i nodeCounter (-1)
  let m1 := r.2.1
  let firstChildIndex := r.2.2
  if r.1 then
    let node : SVONNode :=
      { (default : SVONNode) with
        myCode := i
        myFirstChildIndex :=
          if firstChildIndex > -1 then firstChildIndex
          else (default : SVONNode).myFirstChildIndex
        myPosition := GetNodePosition m1 aLayer i }
    (setLayer m1 aLayer (GetLayer m1 aLayer ++ [node]), nodeCounter + 1)
  else (m1, nodeCounter)

/-- `ASVONManager::RasterizeLayer`. The loops run `i` from `0` while
`i < numNodes`, that is `numNodes.toNat` times. -/
def RasterizeLayer (world : UWorld) (m : ASVONManager) (aLayer : Nat) : ASVONManager :=
  if aLayer = 0 then
    ((List.range (GetNodesInLayer m aLayer).toNat).foldl (rasterizeLayer0Step world) (m, 0)).1
  else if (GetLayer m (aLayer - 1)).length > 1 then
    ((List.range (GetNodesInLayer m aLayer).toNat).foldl (rasterizeUpperStep aLayer) (m, 0)).1
  else m

/-- The statement `x += dirs[d].X` on a `uint_fast32_t`. -/
def addWrap (x : Nat) (delta : Int) : Nat := (((x : Int) + delta) % 2 ^ 32).toNat

/-- The forward `while` loop of `BuildNeighbourLinks`: called on the array from
index `i` on, it returns the first index whose node has code `thisCode`. -/
def scanUp (thisCode : Nat) : List SVONNode → Nat → Option Nat
  | [], _ => none
  | node :: rest, j => if node.myCode = thisCode then some j else scanUp thisCode rest (j + 1)

/-- The backward `while` loop of `BuildNeighbourLinks`, running while the index
is above 0. -/
def scanDown (layer : List SVONNode) (thisCode : Nat) : Nat → Option Nat
  | 0 => none
  | j + 1 =>
    if (nodeAt layer (j + 1)).myCode = thisCode then some (j + 1)
    else scanDown layer thisCode j

/-- The assignment to `layer[i].myNeighbours[d]`. -/
def setNeighbour (layer : List SVONNode) (i d : Nat) (link : SVONLink) : List SVONNode :=
  modifyAt layer i (fun n => { n with myNeighbours := n.myNeighbours.set d link })

/-- One iteration of the direction loop of `BuildNeighbourLinks` for the node at
index `i`; the state is the array and the running coordinate `x, y, z`. -/
def linkDirection (aLayer maxCoord i : Nat) (acc : List SVONNode × Nat × Nat × Nat)
    (d : Nat) : List SVONNode × Nat × Nat × Nat :=
  let dir := dirs.getD d ⟨0, 0, 0⟩
  let x := addWrap acc.2.1 dir.X
  let y := addWrap acc.2.2.1 dir.Y
  let z := addWrap acc.2.2.2 dir.Z
  let layer1 :=
    if x < 0 ∨ x > maxCoord ∨ y < 0 ∨ y > maxCoord ∨ z < 0 ∨ z > maxCoord then
      setNeighbour acc.1 i d SVONLink.invalid
    else acc.1
  let thisCode := morton3D_64_encode x y z
  let isHigher : Bool := decide (thisCode > (nodeAt layer1 i).myCode)
  let found := if isHigher then scanUp thisCode (layer1.drop i) i else scanDown layer1 thisCode i
  match found with
  | some j => (setNeighbour layer1 i d (SVONLink.node aLayer j), x, y, z)
  | none => (layer1, x, y, z)

/-- The body of the node loop of `BuildNeighbourLinks`. -/
def linkNode (aLayer maxCoord : Nat) (layer : List SVONNode) (i : Nat) : List SVONNode :=
  let c := morton3D_64_decode (nodeAt layer i).myCode
  ((List.range 6).foldl (linkDirection aLayer maxCoord i) (layer, c)).1

/-- `ASVONManager::BuildNeighbourLinks`; `maxCoord` is the `int32` count stored in
a `uint_fast32_t`. -/
def BuildNeighbourLinks (m : ASVONManager) (aLayer : Nat) : ASVONManager :=
  let maxCoord := (GetNodesPerSide m aLayer % 2 ^ 32).toNat
  let layer := GetLayer m aLayer
  setLayer m aLayer ((List.range layer.length).foldl (linkNode aLayer maxCoord) layer)

/-- The state of `Generate` after the first pass, the leaf allocation and the
creation of the empty layers. -/
def generateInit (world : UWorld) (m : ASVONManager) : ASVONManager :=
  let m1 : ASVONManager :=
    { m with myBlockedIndices := [], myLayers := [], myNumLayers := m.myVoxelPower + 1 }
  let m2 := AllocateLeafNodes (FirstPassRasterize world m1)
  (List.range m2.myNumLayers).foldl (fun s _ => { s with myLayers := s.myLayers ++ [[]] }) m2

/-- The state of `Generate` after `RasterizeLayer` has run for layers `0 .. n-1`. -/
def rasterizeLayers (world : UWorld) (m : ASVONManager) (n : Nat) : ASVONManager :=
  (List.range n).foldl (RasterizeLayer world) (generateInit world m)

/-- `ASVONManager::Generate`. -/
def Generate (world : UWorld) (m : ASVONManager) : ASVONManager :=
  let m1 := rasterizeLayers world m (generateInit world m).myNumLayers
  (List.range m1.myNumLayers).reverse.foldl BuildNeighbourLinks m1

/-- `ASVONManager::GetNodeFromLink`. -/
def GetNodeFromLink (m : ASVONManager) (aLink : SVONLink) : Option SVONNode :=
  match aLink with
  | SVONLink.invalid => none
  | SVONLink.node l i => (GetLayer m l)[i]?

/-- `ASVONManager::GetNodeAt`: the decode overwrites the coordinate parameters
from the zero index, and the node at that index is returned. -/
def GetNodeAt (m : ASVONManager) (aLayer : Nat) (_aX _aY _aZ : Nat) : Option SVONNode :=
  let index := 0
  (GetLayer m aLayer)[index]?

/-! ## Auxiliary definitions for the proofs -/

/-- The number of iterations of a loop `for (i = 0; i < GetNodesInLayer(aLayer); i++)`. -/
def nodeCount (m : ASVONManager) (aLayer : Nat) : Nat := (GetNodesInLayer m aLayer).toNat

/-- The number of leaves that `AllocateLeafNodes` adds for `n` blocked indices. -/
def leafCount (n : Nat) : Nat := (wrapInt32 ((n : Int) * 8)).toNat

/-- The write `node.myParentIndex = aThisParentIndex` of `IsAnyMemberBlocked`, done for the
nodes whose code shifted by 3 is `aCode`. -/
def setParentIf (aCode : Nat) (aThisParentIndex : Int) (node : SVONNode) : SVONNode :=
  if node.myCode >>> 3 = aCode then { node with myParentIndex := aThisParentIndex } else node

/-- The fields of the manager that rasterisation and linking leave alone, with the number of
layers. -/
def config (m : ASVONManager) : Nat × FVector × FVector × Nat × List Nat × Nat :=
  (m.myVoxelPower, m.myOrigin, m.myExtent, m.myNumLayers, m.myBlockedIndices, m.myLayers.length)

/-- The node that an iteration of the loop of `RasterizeLayer` above layer 0 appends. -/
def upperNode (m : ASVONManager) (aLayer i : Nat) (firstChildIndex : Int) : SVONNode :=
  { (default : SVONNode) with
    myCode := i
    myFirstChildIndex :=
      if firstChildIndex > -1 then firstChildIndex else (default : SVONNode).myFirstChildIndex
    myPosition := GetNodePosition m aLayer i }

/-- The flag that `IsAnyMemberBlocked` returns, as a test on the layer below. -/
def anyMember (lower : List SVONNode) (i : Nat) : Bool :=
  lower.any (fun node => decide (node.myCode >>> 3 >>> 3 = i >>> 3))

/-- The codes of a layer, in array order. -/
def layerCodes (m : ASVONManager) (K : Nat) : List Nat := (GetLayer m K).map (fun n => n.myCode)

/-- The parent indices of a layer, in array order. -/
def layerParents (m : ASVONManager) (K : Nat) : List Int :=
  (GetLayer m K).map (fun n => n.myParentIndex)

/-- The first-child indices of a layer, in array order. -/
def layerChildren (m : ASVONManager) (K : Nat) : List Int :=
  (GetLayer m K).map (fun n => n.myFirstChildIndex)

/-- The state of the loop of `RasterizeLayer` above layer 0 after `n` iterations. -/
def upperFold (L : Nat) (m : ASVONManager) (n : Nat) : ASVONManager × Int :=
  (List.range n).foldl (rasterizeUpperStep L) (m, 0)

/-- What holds after `n` iterations of the loop of `RasterizeLayer` for a layer `L ≥ 1` started
on the manager `m`. -/
structure UpperInv (L : Nat) (m : ASVONManager) (n : Nat) (s : ASVONManager × Int) : Prop where
  cfg : config s.1 = config m
  leaf : s.1.myLeafNodes = m.myLeafNodes
  other : ∀ K, K ≠ L → K ≠ L - 1 → GetLayer s.1 K = GetLayer m K
  lowerFrame : ∀ {β : Type} (f : SVONNode → β),
    (∀ (node : SVONNode) (p : Int), f { node with myParentIndex := p } = f node) →
    (GetLayer s.1 (L - 1)).map f = (GetLayer m (L - 1)).map f
  upperCodes : layerCodes s.1 L = (List.range n).filter (anyMember (GetLayer m (L - 1)))
  counter : s.2 = ((GetLayer s.1 L).length : Int)
  parent : ∀ (j : Nat) (node : SVONNode), (GetLayer s.1 (L - 1))[j]? = some node → node.myCode >>> 3 < n →
    ∃ p : Nat, node.myParentIndex = (p : Int) ∧
      (layerCodes s.1 L)[p]? = some (node.myCode >>> 3)
  child : ∀ u ∈ GetLayer s.1 L,
    (∃ j : Nat, u.myFirstChildIndex = (j : Int) ∧
        (layerCodes m (L - 1))[j]? = some (8 * u.myCode)) ∨
      (8 * u.myCode ∉ layerCodes m (L - 1) ∧ u.myFirstChildIndex = -1)

/-- The state of the layer-0 loop of `RasterizeLayer` after `n` iterations. -/
def layer0Fold (world : UWorld) (m : ASVONManager) (n : Nat) : ASVONManager × Int :=
  (List.range n).foldl (rasterizeLayer0Step world) (m, 0)

/-- The node that an iteration of the layer-0 loop of `RasterizeLayer` appends. -/
def layer0Node (m : ASVONManager) (i : Nat) (leafIndex : Int) : SVONNode :=
  { (default : SVONNode) with
    myCode := i, myPosition := GetNodePosition m 0 i, myFirstChildIndex := leafIndex }

/-- What holds after `n` iterations of the layer-0 loop of `RasterizeLayer` started on `m`. -/
structure Layer0Inv (m : ASVONManager) (n : Nat) (s : ASVONManager × Int) : Prop where
  cfg : config s.1 = config m
  leafLength : s.1.myLeafNodes.length = m.myLeafNodes.length
  other : ∀ K, K ≠ 0 → GetLayer s.1 K = GetLayer m K
  codes : layerCodes s.1 0 =
    (List.range n).filter (fun i => decide ((i >>> 3) ∈ m.myBlockedIndices))
  counter : s.2 = ((GetLayer s.1 0).length : Int)
  child : ∀ (k : Nat) (node : SVONNode), (GetLayer s.1 0)[k]? = some node →
    node.myFirstChildIndex = (k : Int)

/-- Every node of the lower layer has a parent index that is an index of the upper layer, and
the upper node there has the lower code shifted by 3. -/
def parentOK (lowerCodes : List Nat) (lowerParents : List Int) (upperCodes : List Nat) : Prop :=
  ∀ (j c : Nat), lowerCodes[j]? = some c →
    ∃ p : Nat, lowerParents[j]? = some (p : Int) ∧ upperCodes[p]? = some (c >>> 3)

/-- Every first-child index of the upper layer is the index of the lower node with 8 times the
code, or is `-1` when the lower layer has no such node. -/
def childOK (lowerCodes : List Nat) (upperChildren : List Int) (upperCodes : List Nat) : Prop :=
  ∀ (q u : Nat) (f : Int), upperCodes[q]? = some u → upperChildren[q]? = some f →
    (∃ j : Nat, f = (j : Int) ∧ lowerCodes[j]? = some (8 * u)) ∨
      (8 * u ∉ lowerCodes ∧ f = -1)

/-- The membership test of `IsAnyMemberBlocked` on the codes of the layer below. -/
def memberCodes (lowerCodes : List Nat) (i : Nat) : Bool :=
  lowerCodes.any (fun c => decide (c >>> 3 >>> 3 = i >>> 3))

/-- The effect of `RasterizeLayer` for a layer `n ≥ 1` that is empty before the call. -/
structure UpperSpec (s s1 : ASVONManager) (n : Nat) : Prop where
  cfg : config s1 = config s
  leaf : s1.myLeafNodes = s.myLeafNodes
  other : ∀ K, K ≠ n → K ≠ n - 1 → GetLayer s1 K = GetLayer s K
  codesFrame : ∀ K, K ≠ n → layerCodes s1 K = layerCodes s K
  childrenFrame : ∀ K, K ≠ n → layerChildren s1 K = layerChildren s K
  codes : layerCodes s1 n =
    if 1 < (layerCodes s (n - 1)).length then
      (List.range (nodeCount s n)).filter (memberCodes (layerCodes s (n - 1)))
    else []
  parent : 1 < (layerCodes s (n - 1)).length →
    (∀ c ∈ layerCodes s (n - 1), c >>> 3 < nodeCount s n) →
    parentOK (layerCodes s1 (n - 1)) (layerParents s1 (n - 1)) (layerCodes s1 n)
  child : childOK (layerCodes s1 (n - 1)) (layerChildren s1 n) (layerCodes s1 n)

/-- The layer-1 cells that the first pass finds occupied, ascending. -/
def blockedCells (world : UWorld) (m : ASVONManager) : List Nat :=
  (List.range (nodeCount m 1)).filter
    (fun i => world (GetNodePosition m 1 i) (GetVoxelSize m 1 * (1 / 2)))

/-- What holds inside `Generate` once the layers `0 .. n-1` are rasterised, and after the
neighbour linking as well. -/
structure GenInv (world : UWorld) (m : ASVONManager) (n : Nat) (s : ASVONManager) : Prop where
  cfg : config s = config (generateInit world m)
  leafLength : s.myLeafNodes.length = leafCount (blockedCells world m).length
  empty : ∀ K, n ≤ K → layerCodes s K = []
  codes0 : 0 < n → layerCodes s 0 =
    (List.range (nodeCount m 0)).filter (fun i => decide ((i >>> 3) ∈ blockedCells world m))
  codesUp : ∀ L, 1 ≤ L → L < n → layerCodes s L =
    if 1 < (layerCodes s (L - 1)).length then
      (List.range (nodeCount m L)).filter (memberCodes (layerCodes s (L - 1)))
    else []
  parent : ∀ L, 1 ≤ L → L < n → 1 < (layerCodes s (L - 1)).length →
    parentOK (layerCodes s (L - 1)) (layerParents s (L - 1)) (layerCodes s L)
  child : ∀ L, 1 ≤ L → L < n →
    childOK (layerCodes s (L - 1)) (layerChildren s L) (layerCodes s L)
  child0 : ∀ (k : Nat) (f : Int), (layerChildren s 0)[k]? = some f → f = (k : Int)

/-- A manager for a volume of half-extent 1 around the origin, not yet generated. -/
def demoManager (voxelPower : Nat) : ASVONManager :=
  ⟨voxelPower, ⟨0, 0, 0⟩, ⟨1, 1, 1⟩, 0, [], [], []⟩

/-- A world in which every query reports occupancy. -/
def allBlocked : UWorld := fun _ _ => true

/-- Following `myParentIndex` upward `k` times from the layer-0 node at index `idx`: the node of
layer `k` that is reached, if every index on the way is in range. -/
def ancestor (m : ASVONManager) : Nat → Nat → Option SVONNode
  | 0, idx => (GetLayer m 0)[idx]?
  | k + 1, idx =>
    match ancestor m k idx with
    | none => none
    | some node =>
      if node.myParentIndex < 0 then none
      else (GetLayer m (k + 1))[node.myParentIndex.toNat]?

/-- A world occupied exactly in the octant of positive coordinates. -/
def farCorner : UWorld :=
  fun position _ => decide (0 < position.X ∧ 0 < position.Y ∧ 0 < position.Z)

/-- The lattice coordinate of a code offset by direction `d` alone: `decode(code) + dirs[d]`. -/
def offsetCoordinate (code : Nat) (d : Nat) : Int × Int × Int :=
  let c := morton3D_64_decode code
  let dir := dirs.getD d ⟨0, 0, 0⟩
  ((c.1 : Int) + dir.X, (c.2.1 : Int) + dir.Y, (c.2.2 : Int) + dir.Z)

/-! ## Auxiliary definitions for the leaf masks, sibling groups and scenarios -/

/-- A world in which no query reports occupancy. -/
def noneBlocked : UWorld := fun _ _ => false

/-- The index of the opposite direction in `dirs`: 0 ↔ 1, 2 ↔ 3, 4 ↔ 5. -/
def opposite (d : Nat) : Nat := if d % 2 = 0 then d + 1 else d - 1

/-- A manager of voxel power 1 that still holds contents from an earlier use. -/
def staleManager : ASVONManager :=
  { myVoxelPower := 1, myOrigin := ⟨0, 0, 0⟩, myExtent := ⟨1, 1, 1⟩, myNumLayers := 9,
    myBlockedIndices := [5, 3],
    myLayers := [[{ (default : SVONNode) with myCode := 4, myParentIndex := 2 }], []],
    myLeafNodes := [⟨7⟩] }

/-- The `position` that an iteration of `RasterizeLeafNode` computes for sub-cell index `i`. -/
def leafCellCentre (m : ASVONManager) (aOrigin : FVector) (i : Nat) : FVector :=
  let c := morton3D_64_decode i
  let leafVoxelSize := GetVoxelSize m 0 * (1 / 4)
  (aOrigin.add ⟨c.1 * leafVoxelSize, c.2.1 * leafVoxelSize, c.2.2 * leafVoxelSize⟩).add
    (FVector.splat (leafVoxelSize * (1 / 2)))

/-- One iteration of the loop of `RasterizeLeafNode`, seen on the leaf it writes to. -/
def fillLeafCell (world : UWorld) (m : ASVONManager) (aOrigin : FVector) (leaf : SVONLeafNode)
    (i : Nat) : SVONLeafNode :=
  let c := morton3D_64_decode i
  if world (leafCellCentre m aOrigin i) (GetVoxelSize m 0 * (1 / 4) * (1 / 2)) then
    leaf.SetNodeAt c.1 c.2.1 c.2.2
  else leaf

/-- The loop of `RasterizeLeafNode`, seen on the leaf it writes to. -/
def fillLeaf (world : UWorld) (m : ASVONManager) (aOrigin : FVector) (leaf : SVONLeafNode) :
    SVONLeafNode :=
  (List.range 64).foldl (fillLeafCell world m aOrigin) leaf

/-- A world that reports occupancy exactly for spheres of radius 1/4. -/
def quarterRadiusWorld : UWorld := fun _ r => decide (r = 1 / 4)

/-- A manager of voxel power 1 and half-extent 1 (layer-0 voxel size 1) with one empty leaf. -/
def oneLeafManager : ASVONManager :=
  { myVoxelPower := 1, myOrigin := ⟨0, 0, 0⟩, myExtent := ⟨1, 1, 1⟩, myNumLayers := 2,
    myBlockedIndices := [0], myLayers := [[], []], myLeafNodes := [default] }

/-- The centre of sub-cell `(x, y, z)` of a leaf with origin `aOrigin`:
`aOrigin + (x + 1/2, y + 1/2, z + 1/2) * s` with `s = GetVoxelSize(0) / 4`. -/
def subCellCentre (m : ASVONManager) (aOrigin : FVector) (x y z : Nat) : FVector :=
  ⟨aOrigin.X + ((x : ℚ) + 1 / 2) * (GetVoxelSize m 0 / 4),
    aOrigin.Y + ((y : ℚ) + 1 / 2) * (GetVoxelSize m 0 / 4),
    aOrigin.Z + ((z : ℚ) + 1 / 2) * (GetVoxelSize m 0 / 4)⟩

/-- The eight codes of the sibling group with parent code `q`. -/
def octet (q : Nat) : List Nat :=
  [8 * q, 8 * q + 1, 8 * q + 2, 8 * q + 3, 8 * q + 4, 8 * q + 5, 8 * q + 6, 8 * q + 7]

/-- The sibling groups of a list of parent codes, one after the other. -/
def octets : List Nat → List Nat
  | [] => []
  | q :: qs => octet q ++ octets qs

/-- The `leafOrigin` that the layer-0 loop of `RasterizeLayer` computes for a node code. -/
def leafOrigin (m : ASVONManager) (code : Nat) : FVector :=
  (GetNodePosition m 0 code).sub (FVector.splat (GetVoxelSize m 0 * (1 / 2)))

/-! ## The codec: round trip -/

theorem deinterleave3_interleave3 : ∀ n x y z, x < 2 ^ n → y < 2 ^ n → z < 2 ^ n →
    deinterleave3 n (interleave3 n x y z) = (x, y, z) := by
  intro n
  induction n with
  | zero =>
    intro x y z hx hy hz
    simp at hx hy hz
    subst hx hy hz
    rfl
  | succ n ih =>
    intro x y z hx hy hz
    have hx2 : x / 2 < 2 ^ n := by
      rw [Nat.div_lt_iff_lt_mul (by norm_num)]; rw [pow_succ] at hx; exact hx
    have hy2 : y / 2 < 2 ^ n := by
      rw [Nat.div_lt_iff_lt_mul (by norm_num)]; rw [pow_succ] at hy; exact hy
    have hz2 : z / 2 < 2 ^ n := by
      rw [Nat.div_lt_iff_lt_mul (by norm_num)]; rw [pow_succ] at hz; exact hz
    have h := ih (x / 2) (y / 2) (z / 2) hx2 hy2 hz2
    simp only [deinterleave3, interleave3]
    have e : (x % 2 + 2 * (y % 2) + 4 * (z % 2) + 8 * interleave3 n (x / 2) (y / 2) (z / 2)) / 8
        = interleave3 n (x / 2) (y / 2) (z / 2) := by omega
    rw [e, h]
    simp only [Prod.mk.injEq]
    refine ⟨?_, ?_, ?_⟩ <;> omega

/-- C1: for every lattice coordinate whose components are below `2 ^ 21`,
decoding the Morton code of the coordinate gives the coordinate back. -/
theorem morton3D_64_roundtrip (x y z : Nat) (hx : x < 2 ^ 21) (hy : y < 2 ^ 21)
    (hz : z < 2 ^ 21) :
    morton3D_64_decode (morton3D_64_encode x y z) = (x, y, z) :=
  deinterleave3_interleave3 21 x y z hx hy hz

theorem morton3D_64_roundtrip_witness :
    (2097151 < 2 ^ 21 ∧ 5 < 2 ^ 21 ∧ 0 < 2 ^ 21) ∧
      morton3D_64_decode (morton3D_64_encode 2097151 5 0) = (2097151, 5, 0) :=
  ⟨by decide, morton3D_64_roundtrip 2097151 5 0 (by decide) (by decide) (by decide)⟩

/-! ## Rasterisation, linking and the state after `Generate` -/

theorem memberScan_lower (a : Nat) (p : Int) : ∀ (lower : List SVONNode) (i : Nat) (fc : Int)
    (b : Bool), (memberScan a p lower i fc b).lower = lower.map (setParentIf a p) := by
  intro lower
  induction lower with
  | nil => intro i fc b; rfl
  | cons node rest ih =>
    intro i fc b
    by_cases h1 : node.myCode >>> 3 = a
    · have h2 : node.myCode >>> 3 >>> 3 = a >>> 3 := by rw [h1]
      simp [memberScan, setParentIf, h1, h2, ih]
    · by_cases h2 : node.myCode >>> 3 >>> 3 = a >>> 3
      · simp [memberScan, setParentIf, h1, h2, ih]
      · simp [memberScan, setParentIf, h1, h2, ih]

theorem memberScan_isBlocked (a : Nat) (p : Int) : ∀ (lower : List SVONNode) (i : Nat)
    (fc : Int) (b : Bool), (memberScan a p lower i fc b).isBlocked =
      (b || lower.any (fun node => decide (node.myCode >>> 3 >>> 3 = a >>> 3))) := by
  intro lower
  induction lower with
  | nil => intro i fc b; simp [memberScan]
  | cons node rest ih =>
    intro i fc b
    by_cases h2 : node.myCode >>> 3 >>> 3 = a >>> 3
    · by_cases h1 : node.myCode >>> 3 = a
      · simp [memberScan, h1, h2, ih]
      · simp [memberScan, h1, h2, ih]
    · simp [memberScan, h2, ih]

theorem memberScan_child (a : Nat) (p : Int) : ∀ (lower : List SVONNode) (i : Nat) (fc : Int)
    (b : Bool),
    (∃ j node, lower[j]? = some node ∧ node.myCode >>> 3 = a ∧ node.myCode % 8 = 0 ∧
        (memberScan a p lower i fc b).oFirstChildIndex = ((i + j : Nat) : Int)) ∨
      ((∀ node ∈ lower, ¬ (node.myCode >>> 3 = a ∧ node.myCode % 8 = 0)) ∧
        (memberScan a p lower i fc b).oFirstChildIndex = fc) := by
  intro lower
  induction lower with
  | nil => intro i fc b; right; simp [memberScan]
  | cons node rest ih =>
    intro i fc b
    have lift : ∀ (fc1 : Int) (b1 : Bool) (r : Int),
        (memberScan a p rest (i + 1) fc1 b1).oFirstChildIndex = r →
        ((fc1 = fc ∧ ¬ (node.myCode >>> 3 = a ∧ node.myCode % 8 = 0)) ∨
          (fc1 = (i : Int) ∧ node.myCode >>> 3 = a ∧ node.myCode % 8 = 0)) →
        (∃ j nd, (node :: rest)[j]? = some nd ∧ nd.myCode >>> 3 = a ∧ nd.myCode % 8 = 0 ∧
          r = ((i + j : Nat) : Int)) ∨
        ((∀ nd ∈ node :: rest, ¬ (nd.myCode >>> 3 = a ∧ nd.myCode % 8 = 0)) ∧ r = fc) := by
      intro fc1 b1 r hr hcase
      rcases ih (i + 1) fc1 b1 with ⟨j, nd, hj, h3, h8, hfc⟩ | ⟨hnone, hfc⟩
      · left
        refine ⟨j + 1, nd, by simpa using hj, h3, h8, ?_⟩
        rw [← hr, hfc]; push_cast; ring
      · rcases hcase with ⟨e, hn⟩ | ⟨e, h3, h8⟩
        · right
          refine ⟨?_, by rw [← hr, hfc, e]⟩
          intro nd hnd
          rcases List.mem_cons.mp hnd with rfl | hnd
          · exact hn
          · exact hnone nd hnd
        · left
          exact ⟨0, node, by simp, h3, h8, by rw [← hr, hfc, e]; simp⟩
    by_cases h2 : node.myCode >>> 3 >>> 3 = a >>> 3
    · by_cases h1 : node.myCode >>> 3 = a
      · by_cases h8 : node.myCode % 8 = 0
        · apply lift (i : Int) true
          · simp [memberScan, h1, h2, h8]
          · right; exact ⟨rfl, h1, h8⟩
        · apply lift fc true
          · simp [memberScan, h1, h2, h8]
          · left; exact ⟨rfl, fun h => h8 h.2⟩
      · apply lift fc true
        · simp [memberScan, h1, h2]
        · left; exact ⟨rfl, fun h => h1 h.1⟩
    · have h1 : ¬ node.myCode >>> 3 = a := fun h => h2 (by rw [h])
      apply lift fc b
      · simp [memberScan, h2]
      · left; exact ⟨rfl, fun h => h1 h.1⟩

theorem GetLayer_setLayer_same (m : ASVONManager) (K : Nat) (l : List SVONNode)
    (h : K < m.myLayers.length) : GetLayer (setLayer m K l) K = l := by
  simp [GetLayer, setLayer, List.getD_eq_getElem?_getD, h]

theorem GetLayer_setLayer_ne (m : ASVONManager) (K K' : Nat) (l : List SVONNode)
    (h : K ≠ K') : GetLayer (setLayer m K l) K' = GetLayer m K' := by
  simp [GetLayer, setLayer, List.getD_eq_getElem?_getD, List.getElem?_set_ne h]

theorem config_setLayer (m : ASVONManager) (K : Nat) (l : List SVONNode) :
    config (setLayer m K l) = config m := by
  simp [config, setLayer]

theorem myLeafNodes_setLayer (m : ASVONManager) (K : Nat) (l : List SVONNode) :
    (setLayer m K l).myLeafNodes = m.myLeafNodes := rfl

theorem length_setLayer (m : ASVONManager) (K : Nat) (l : List SVONNode) :
    (setLayer m K l).myLayers.length = m.myLayers.length := by
  simp [setLayer]

theorem GetNodePosition_congr (m m1 : ASVONManager) (h : config m1 = config m) (L c : Nat) :
    GetNodePosition m1 L c = GetNodePosition m L c := by
  simp only [config, Prod.mk.injEq] at h
  obtain ⟨h1, h2, h3, -⟩ := h
  simp [GetNodePosition, GetVoxelSize, h1, h2, h3]

theorem rasterizeUpperStep_eq (L : Nat) (acc : ASVONManager × Int) (i : Nat) :
    rasterizeUpperStep L acc i =
      (let r := memberScan i acc.2 (GetLayer acc.1 (L - 1)) 0 (-1) false
       let m1 := setLayer acc.1 (L - 1) r.lower
       if r.isBlocked then
         (setLayer m1 L (GetLayer m1 L ++ [upperNode m1 L i r.oFirstChildIndex]), acc.2 + 1)
       else (m1, acc.2)) := rfl

theorem rasterizeUpperStep_config (L : Nat) (acc : ASVONManager × Int) (i : Nat) :
    config (rasterizeUpperStep L acc i).1 = config acc.1 := by
  rw [rasterizeUpperStep_eq]
  dsimp only
  split <;> simp [config_setLayer]

theorem rasterizeUpperStep_leaf (L : Nat) (acc : ASVONManager × Int) (i : Nat) :
    (rasterizeUpperStep L acc i).1.myLeafNodes = acc.1.myLeafNodes := by
  rw [rasterizeUpperStep_eq]
  dsimp only
  split <;> simp [myLeafNodes_setLayer]

theorem rasterizeUpperStep_other (L : Nat) (acc : ASVONManager × Int) (i K : Nat)
    (h1 : K ≠ L) (h2 : K ≠ L - 1) :
    GetLayer (rasterizeUpperStep L acc i).1 K = GetLayer acc.1 K := by
  rw [rasterizeUpperStep_eq]
  dsimp only
  split <;> simp [GetLayer_setLayer_ne _ _ _ _ (Ne.symm h1), GetLayer_setLayer_ne _ _ _ _ (Ne.symm h2)]

theorem rasterizeUpperStep_lower (L : Nat) (hL : 1 ≤ L) (acc : ASVONManager × Int) (i : Nat)
    (hlen : L < acc.1.myLayers.length) :
    GetLayer (rasterizeUpperStep L acc i).1 (L - 1) =
      (GetLayer acc.1 (L - 1)).map (setParentIf i acc.2) := by
  have hne : L ≠ L - 1 := by omega
  have hlt : L - 1 < acc.1.myLayers.length := by omega
  rw [rasterizeUpperStep_eq]
  dsimp only
  split
  · rw [GetLayer_setLayer_ne _ _ _ _ hne, GetLayer_setLayer_same _ _ _ hlt, memberScan_lower]
  · rw [GetLayer_setLayer_same _ _ _ hlt, memberScan_lower]

theorem rasterizeUpperStep_upper (L : Nat) (hL : 1 ≤ L) (acc : ASVONManager × Int) (i : Nat)
    (hlen : L < acc.1.myLayers.length) :
    GetLayer (rasterizeUpperStep L acc i).1 L =
      GetLayer acc.1 L ++
        (if anyMember (GetLayer acc.1 (L - 1)) i then
          [upperNode acc.1 L i
            (memberScan i acc.2 (GetLayer acc.1 (L - 1)) 0 (-1) false).oFirstChildIndex]
        else []) := by
  have hne : L - 1 ≠ L := by omega
  rw [rasterizeUpperStep_eq]
  dsimp only
  rw [memberScan_isBlocked]
  simp only [Bool.false_or]
  unfold anyMember
  split
  · rw [GetLayer_setLayer_same _ _ _ (by rw [length_setLayer]; exact hlen),
      GetLayer_setLayer_ne _ _ _ _ hne]
    have : upperNode (setLayer acc.1 (L - 1)
        (memberScan i acc.2 (GetLayer acc.1 (L - 1)) 0 (-1) false).lower) L i
        (memberScan i acc.2 (GetLayer acc.1 (L - 1)) 0 (-1) false).oFirstChildIndex
        = upperNode acc.1 L i
        (memberScan i acc.2 (GetLayer acc.1 (L - 1)) 0 (-1) false).oFirstChildIndex := by
      simp [upperNode, GetNodePosition_congr _ _ (config_setLayer _ _ _)]
    rw [this]
  · rw [GetLayer_setLayer_ne _ _ _ _ hne]; simp

theorem rasterizeUpperStep_counter (L : Nat) (acc : ASVONManager × Int) (i : Nat) :
    (rasterizeUpperStep L acc i).2 =
      acc.2 + (if anyMember (GetLayer acc.1 (L - 1)) i then 1 else 0) := by
  rw [rasterizeUpperStep_eq]
  dsimp only
  rw [memberScan_isBlocked]
  simp only [Bool.false_or]
  unfold anyMember
  split <;> simp

theorem upperFold_succ (L : Nat) (m : ASVONManager) (n : Nat) :
    upperFold L m (n + 1) = rasterizeUpperStep L (upperFold L m n) n := by
  simp [upperFold, List.range_succ, List.foldl_append]

theorem config_length {m m1 : ASVONManager} (h : config m1 = config m) :
    m1.myLayers.length = m.myLayers.length := by
  simp only [config, Prod.mk.injEq] at h
  exact h.2.2.2.2.2

theorem anyMember_iff (lower : List SVONNode) (i : Nat) :
    anyMember lower i = true ↔ ∃ c ∈ lower.map (fun n => n.myCode), c >>> 3 >>> 3 = i >>> 3 := by
  simp [anyMember]

theorem anyMember_congr (lower lower1 : List SVONNode) (i : Nat)
    (h : lower1.map (fun n => n.myCode) = lower.map (fun n => n.myCode)) :
    anyMember lower1 i = anyMember lower i := by
  rw [Bool.eq_iff_iff, anyMember_iff, anyMember_iff, h]

theorem shift_eq_iff (c a : Nat) : (c >>> 3 = a ∧ c % 8 = 0) ↔ c = 8 * a := by
  rw [Nat.shiftRight_eq_div_pow]
  constructor
  · rintro ⟨h1, h2⟩; omega
  · intro h; constructor <;> omega

theorem memberScan_child_codes (a : Nat) (p : Int) (lower : List SVONNode) (fc : Int)
    (b : Bool) :
    (∃ j : Nat, (memberScan a p lower 0 fc b).oFirstChildIndex = (j : Int) ∧
        (lower.map (fun n => n.myCode))[j]? = some (8 * a)) ∨
      (8 * a ∉ lower.map (fun n => n.myCode) ∧
        (memberScan a p lower 0 fc b).oFirstChildIndex = fc) := by
  rcases memberScan_child a p lower 0 fc b with ⟨j, node, hj, h3, h8, hfc⟩ | ⟨hnone, hfc⟩
  · left
    refine ⟨j, by simpa using hfc, ?_⟩
    rw [List.getElem?_map, hj]
    simp [(shift_eq_iff node.myCode a).mp ⟨h3, h8⟩]
  · right
    refine ⟨?_, hfc⟩
    intro hmem
    rcases List.mem_map.mp hmem with ⟨node, hnode, hcode⟩
    exact hnone node hnode ((shift_eq_iff node.myCode a).mpr hcode)

theorem map_setParentIf {β : Type} (f : SVONNode → β)
    (hf : ∀ (node : SVONNode) (p : Int), f { node with myParentIndex := p } = f node)
    (a : Nat) (p : Int) (l : List SVONNode) : (l.map (setParentIf a p)).map f = l.map f := by
  rw [List.map_map]
  apply List.map_congr_left
  intro node _
  simp only [Function.comp, setParentIf]
  split
  · exact hf node p
  · rfl

theorem upperNode_child (m : ASVONManager) (L i : Nat) (lower : List SVONNode) (p : Int) :
    (∃ j : Nat, (upperNode m L i (memberScan i p lower 0 (-1) false).oFirstChildIndex).myFirstChildIndex
        = (j : Int) ∧ (lower.map (fun n => n.myCode))[j]? = some (8 * i)) ∨
      (8 * i ∉ lower.map (fun n => n.myCode) ∧
        (upperNode m L i (memberScan i p lower 0 (-1) false).oFirstChildIndex).myFirstChildIndex
          = -1) := by
  rcases memberScan_child_codes i p lower (-1) false with ⟨j, hj, hc⟩ | ⟨hn, hfc⟩
  · left
    refine ⟨j, ?_, hc⟩
    simp only [upperNode, hj]
    have : ((j : Int) > -1) := by omega
    simp [this]
  · right
    refine ⟨hn, ?_⟩
    simp only [upperNode, hfc]
    rfl

theorem upperInv_zero (L : Nat) (m : ASVONManager) (hempty : GetLayer m L = []) :
    UpperInv L m 0 (upperFold L m 0) where
  cfg := rfl
  leaf := rfl
  other := fun _ _ _ => rfl
  lowerFrame := fun _ _ => rfl
  upperCodes := by simp [upperFold, layerCodes, hempty]
  counter := by simp [upperFold, hempty]
  parent := fun _ _ _ h => absurd h (Nat.not_lt_zero _)
  child := by simp [upperFold, hempty]

theorem upperInv_step (L : Nat) (hL : 1 ≤ L) (m : ASVONManager) (hlen : L < m.myLayers.length)
    (n : Nat) (s : ASVONManager × Int) (h : UpperInv L m n s) :
    UpperInv L m (n + 1) (rasterizeUpperStep L s n) := by
  have hlen1 : L < s.1.myLayers.length := by rw [config_length h.cfg]; exact hlen
  have hcodes : (GetLayer s.1 (L - 1)).map (fun n => n.myCode)
      = (GetLayer m (L - 1)).map (fun n => n.myCode) := h.lowerFrame _ (fun _ _ => rfl)
  have hany : anyMember (GetLayer s.1 (L - 1)) n = anyMember (GetLayer m (L - 1)) n :=
    anyMember_congr _ _ _ hcodes
  have hupper := rasterizeUpperStep_upper L hL s n hlen1
  rw [hany] at hupper
  refine ⟨?_, ?_, ?_, ?_, ?_, ?_, ?_, ?_⟩
  · rw [rasterizeUpperStep_config, h.cfg]
  · rw [rasterizeUpperStep_leaf, h.leaf]
  · intro K h1 h2
    rw [rasterizeUpperStep_other L s n K h1 h2, h.other K h1 h2]
  · intro β f hf
    rw [rasterizeUpperStep_lower L hL s n hlen1, map_setParentIf f hf, h.lowerFrame f hf]
  · unfold layerCodes
    rw [hupper, List.map_append, List.range_succ, List.filter_append]
    have := h.upperCodes
    unfold layerCodes at this
    rw [this]
    congr 1
    by_cases hb : anyMember (GetLayer m (L - 1)) n = true
    · simp [hb, upperNode]
    · simp [hb]
  · rw [rasterizeUpperStep_counter, hany, hupper, h.counter]
    by_cases hb : anyMember (GetLayer m (L - 1)) n = true
    · simp [hb]
    · simp [hb]
  · intro j node hj hlt
    rw [rasterizeUpperStep_lower L hL s n hlen1, List.getElem?_map] at hj
    cases hold : (GetLayer s.1 (L - 1))[j]? with
    | none => rw [hold] at hj; simp at hj
    | some old =>
      rw [hold] at hj
      simp only [Option.map_some', Option.some.injEq] at hj
      unfold layerCodes
      rw [hupper, List.map_append]
      by_cases hc : old.myCode >>> 3 = n
      · have hnode : node.myCode = old.myCode ∧ node.myParentIndex = s.2 := by
          rw [← hj]; simp [setParentIf, hc]
        have hb : anyMember (GetLayer m (L - 1)) n = true := by
          rw [← hany, anyMember_iff]
          refine ⟨old.myCode, List.mem_map.mpr ⟨old, List.getElem?_mem hold, rfl⟩, ?_⟩
          rw [hc]
        refine ⟨(GetLayer s.1 L).length, by rw [hnode.2, h.counter], ?_⟩
        rw [List.getElem?_append_right (by simp)]
        simp [hb, upperNode, hnode.1, hc]
      · have hnode : node = old := by
          rw [← hj]; simp [setParentIf, hc]
        subst hnode
        have hlt1 : node.myCode >>> 3 < n := by omega
        obtain ⟨p, hp, hget⟩ := h.parent j node hold hlt1
        refine ⟨p, hp, ?_⟩
        unfold layerCodes at hget
        have hplt : p < ((GetLayer s.1 L).map (fun n => n.myCode)).length := by
          rcases List.getElem?_eq_some_iff.mp hget with ⟨hh, -⟩
          exact hh
        rw [List.getElem?_append_left hplt]
        exact hget
  · intro u hu
    rw [hupper, List.mem_append] at hu
    rcases hu with hu | hu
    · exact h.child u hu
    · by_cases hb : anyMember (GetLayer m (L - 1)) n = true
      · simp only [hb, if_true, List.mem_singleton] at hu
        subst hu
        have := upperNode_child s.1 L n (GetLayer s.1 (L - 1)) s.2
        rw [hcodes] at this
        have hcode : (upperNode s.1 L n
            (memberScan n s.2 (GetLayer s.1 (L - 1)) 0 (-1) false).oFirstChildIndex).myCode = n :=
          rfl
        rw [hcode]
        exact this
      · simp [hb] at hu

theorem upperInv_fold (L : Nat) (hL : 1 ≤ L) (m : ASVONManager) (hlen : L < m.myLayers.length)
    (hempty : GetLayer m L = []) (n : Nat) : UpperInv L m n (upperFold L m n) := by
  induction n with
  | zero => exact upperInv_zero L m hempty
  | succ n ih =>
    rw [upperFold_succ]
    exact upperInv_step L hL m hlen n _ ih

theorem layer0Fold_succ (world : UWorld) (m : ASVONManager) (n : Nat) :
    layer0Fold world m (n + 1) = rasterizeLayer0Step world (layer0Fold world m n) n := by
  simp [layer0Fold, List.range_succ, List.foldl_append]

theorem length_modifyAt {α : Type} (xs : List α) (i : Nat) (f : α → α) :
    (modifyAt xs i f).length = xs.length := by
  unfold modifyAt
  split <;> simp

theorem rasterizeLeafCell_length (world : UWorld) (m : ASVONManager) (o : FVector) (k : Int)
    (leaves : List SVONLeafNode) (i : Nat) :
    (rasterizeLeafCell world m o k leaves i).length = leaves.length := by
  unfold rasterizeLeafCell
  dsimp only
  split
  · exact length_modifyAt _ _ _
  · rfl

theorem RasterizeLeafNode_length (world : UWorld) (m : ASVONManager) (o : FVector) (k : Int) :
    (RasterizeLeafNode world m o k).myLeafNodes.length = m.myLeafNodes.length := by
  unfold RasterizeLeafNode
  dsimp only
  generalize List.range 64 = cells
  generalize m.myLeafNodes = leaves
  induction cells generalizing leaves with
  | nil => rfl
  | cons c cs ih => rw [List.foldl_cons, ih, rasterizeLeafCell_length]

theorem rasterizeLayer0Step_eq (world : UWorld) (acc : ASVONManager × Int) (i : Nat) :
    rasterizeLayer0Step world acc i =
      (if (i >>> 3) ∈ acc.1.myBlockedIndices then
        (setLayer (RasterizeLeafNode world acc.1
            ((GetNodePosition acc.1 0 i).sub (FVector.splat (GetVoxelSize acc.1 0 * (1 / 2))))
            acc.2) 0
          (GetLayer acc.1 0 ++ [layer0Node acc.1 i acc.2]), acc.2 + 1)
      else acc) := rfl

theorem config_blocked {m m1 : ASVONManager} (h : config m1 = config m) :
    m1.myBlockedIndices = m.myBlockedIndices := by
  simp only [config, Prod.mk.injEq] at h
  exact h.2.2.2.2.1

theorem config_voxelPower {m m1 : ASVONManager} (h : config m1 = config m) :
    m1.myVoxelPower = m.myVoxelPower := by
  simp only [config, Prod.mk.injEq] at h
  exact h.1

theorem config_numLayers {m m1 : ASVONManager} (h : config m1 = config m) :
    m1.myNumLayers = m.myNumLayers := by
  simp only [config, Prod.mk.injEq] at h
  exact h.2.2.2.1

theorem layer0Inv_zero (world : UWorld) (m : ASVONManager) (hempty : GetLayer m 0 = []) :
    Layer0Inv m 0 (layer0Fold world m 0) where
  cfg := rfl
  leafLength := rfl
  other := fun _ _ => rfl
  codes := by simp [layer0Fold, layerCodes, hempty]
  counter := by simp [layer0Fold, hempty]
  child := by simp [layer0Fold, hempty]

theorem layer0Inv_step (world : UWorld) (m : ASVONManager) (hlen : 0 < m.myLayers.length)
    (n : Nat) (s : ASVONManager × Int) (h : Layer0Inv m n s) :
    Layer0Inv m (n + 1) (rasterizeLayer0Step world s n) := by
  have hlen1 : 0 < s.1.myLayers.length := by rw [config_length h.cfg]; exact hlen
  have hblocked := config_blocked h.cfg
  rw [rasterizeLayer0Step_eq]
  by_cases hb : (n >>> 3) ∈ s.1.myBlockedIndices
  · have hb1 : (n >>> 3) ∈ m.myBlockedIndices := hblocked ▸ hb
    rw [if_pos hb]
    have hget : ∀ (l : List SVONNode) (o : FVector),
        GetLayer (setLayer (RasterizeLeafNode world s.1 o s.2) 0 l) 0 = l :=
      fun l o => GetLayer_setLayer_same _ _ _ hlen1
    refine ⟨?_, ?_, ?_, ?_, ?_, ?_⟩
    · rw [config_setLayer]; exact h.cfg
    · rw [myLeafNodes_setLayer, RasterizeLeafNode_length]; exact h.leafLength
    · intro K hK
      rw [GetLayer_setLayer_ne _ _ _ _ (Ne.symm hK)]
      exact h.other K hK
    · unfold layerCodes
      rw [hget, List.map_append, List.range_succ, List.filter_append]
      have := h.codes
      unfold layerCodes at this
      rw [this]
      simp [hb1, layer0Node]
    · dsimp only
      rw [hget, h.counter]
      simp
    · intro k node hk
      dsimp only at hk
      rw [hget] at hk
      by_cases hlt : k < (GetLayer s.1 0).length
      · rw [List.getElem?_append_left hlt] at hk
        exact h.child k node hk
      · rw [List.getElem?_append_right (by omega)] at hk
        have hk0 : k - (GetLayer s.1 0).length = 0 := by
          by_contra hne
          rw [List.getElem?_eq_none (by simp; omega)] at hk
          exact Option.noConfusion hk
        rw [hk0] at hk
        simp only [List.getElem?_cons_zero, Option.some.injEq] at hk
        rw [← hk]
        simp only [layer0Node]
        rw [h.counter]
        have : k = (GetLayer s.1 0).length := by omega
        rw [this]
  · have hb1 : ¬ (n >>> 3) ∈ m.myBlockedIndices := fun hh => hb (hblocked ▸ hh)
    rw [if_neg hb]
    refine ⟨h.cfg, h.leafLength, h.other, ?_, h.counter, h.child⟩
    rw [h.codes, List.range_succ, List.filter_append]
    simp [hb1]

theorem layer0Inv_fold (world : UWorld) (m : ASVONManager) (hlen : 0 < m.myLayers.length)
    (hempty : GetLayer m 0 = []) (n : Nat) : Layer0Inv m n (layer0Fold world m n) := by
  induction n with
  | zero => exact layer0Inv_zero world m hempty
  | succ n ih =>
    rw [layer0Fold_succ]
    exact layer0Inv_step world m hlen n _ ih

theorem anyMember_eq_memberCodes (lower : List SVONNode) (i : Nat) :
    anyMember lower i = memberCodes (lower.map (fun n => n.myCode)) i := by
  unfold anyMember memberCodes
  induction lower with
  | nil => rfl
  | cons node rest ih => simp only [List.map_cons, List.any_cons, ih]

theorem RasterizeLayer_succ (world : UWorld) (s : ASVONManager) (n : Nat) (hn : 1 ≤ n) :
    RasterizeLayer world s n =
      if 1 < (GetLayer s (n - 1)).length then (upperFold n s (nodeCount s n)).1 else s := by
  have : n ≠ 0 := by omega
  simp [RasterizeLayer, this, upperFold, nodeCount]

theorem RasterizeLayer_zero (world : UWorld) (s : ASVONManager) :
    RasterizeLayer world s 0 = (layer0Fold world s (nodeCount s 0)).1 := by
  simp [RasterizeLayer, layer0Fold, nodeCount]

theorem upperSpec (world : UWorld) (s : ASVONManager) (n : Nat) (hn : 1 ≤ n)
    (hlen : n < s.myLayers.length) (hempty : GetLayer s n = []) :
    UpperSpec s (RasterizeLayer world s n) n := by
  rw [RasterizeLayer_succ world s n hn]
  have hlenc : (layerCodes s (n - 1)).length = (GetLayer s (n - 1)).length := by
    simp [layerCodes]
  by_cases hgt : 1 < (GetLayer s (n - 1)).length
  · rw [if_pos hgt]
    have inv := upperInv_fold n hn s hlen hempty (nodeCount s n)
    have hne : n - 1 ≠ n := by omega
    have hcodes : layerCodes (upperFold n s (nodeCount s n)).1 (n - 1)
        = layerCodes s (n - 1) := inv.lowerFrame _ (fun _ _ => rfl)
    have hframe : ∀ {β : Type} (f : SVONNode → β),
        (∀ (node : SVONNode) (p : Int), f { node with myParentIndex := p } = f node) →
        ∀ K, K ≠ n → (GetLayer (upperFold n s (nodeCount s n)).1 K).map f
          = (GetLayer s K).map f := by
      intro β f hf K hK
      by_cases hK1 : K = n - 1
      · subst hK1; exact inv.lowerFrame f hf
      · rw [inv.other K hK hK1]
    refine ⟨inv.cfg, inv.leaf, inv.other, ?_, ?_, ?_, ?_, ?_⟩
    · exact fun K hK => hframe (fun n => n.myCode) (fun _ _ => rfl) K hK
    · exact fun K hK => hframe (fun n => n.myFirstChildIndex) (fun _ _ => rfl) K hK
    · rw [if_pos (by rw [hlenc]; exact hgt), inv.upperCodes]
      apply List.filter_congr
      intro i _
      rw [anyMember_eq_memberCodes]
      rfl
    · intro _ hbound j c hj
      rw [hcodes] at hj
      have hj1 : ((GetLayer (upperFold n s (nodeCount s n)).1 (n - 1)).map
          (fun n => n.myCode))[j]? = some c := by
        have := hcodes
        unfold layerCodes at this
        rw [this]; exact hj
      rw [List.getElem?_map] at hj1
      cases hnode : (GetLayer (upperFold n s (nodeCount s n)).1 (n - 1))[j]? with
      | none => rw [hnode] at hj1; simp at hj1
      | some node =>
        rw [hnode] at hj1
        simp only [Option.map_some', Option.some.injEq] at hj1
        have hlt : node.myCode >>> 3 < nodeCount s n := by
          rw [hj1]; exact hbound c (List.getElem?_mem hj)
        obtain ⟨p, hp, hget⟩ := inv.parent j node hnode hlt
        refine ⟨p, ?_, ?_⟩
        · unfold layerParents
          rw [List.getElem?_map, hnode]
          simp [hp]
        · rw [hget, hj1]
    · intro q u f hu hf
      unfold layerCodes at hu
      unfold layerChildren at hf
      rw [List.getElem?_map] at hu hf
      cases hnode : (GetLayer (upperFold n s (nodeCount s n)).1 n)[q]? with
      | none => rw [hnode] at hu; simp at hu
      | some node =>
        rw [hnode] at hu hf
        simp only [Option.map_some', Option.some.injEq] at hu hf
        rw [hcodes, ← hu, ← hf]
        exact inv.child node (List.getElem?_mem hnode)
  · rw [if_neg hgt]
    have hcn : layerCodes s n = [] := by simp [layerCodes, hempty]
    refine ⟨rfl, rfl, fun _ _ _ => rfl, fun _ _ => rfl, fun _ _ => rfl, ?_, ?_, ?_⟩
    · rw [if_neg (by rw [hlenc]; exact hgt), hcn]
    · intro h; rw [hlenc] at h; exact absurd h hgt
    · intro q u f hu
      rw [hcn] at hu
      simp at hu

theorem collect_fold (p : Nat → Bool) (acc : List Nat) (n : Nat) :
    (List.range n).foldl (fun (l : List Nat) i => if p i then l ++ [i] else l) acc =
      acc ++ (List.range n).filter p := by
  induction n with
  | zero => simp
  | succ n ih =>
    rw [List.range_succ, List.foldl_append, ih, List.filter_append]
    cases h : p n <;> simp [h]

theorem firstPass_fold (world : UWorld) (m : ASVONManager) (acc : List Nat) (n : Nat) :
    (List.range n).foldl (firstPassStep world m) acc =
      acc ++ (List.range n).filter
        (fun i => world (GetNodePosition m 1 i) (GetVoxelSize m 1 * (1 / 2))) :=
  collect_fold (fun i => world (GetNodePosition m 1 i) (GetVoxelSize m 1 * (1 / 2))) acc n

theorem blockedCells_sorted (world : UWorld) (m : ASVONManager) :
    List.Sorted (fun a b => a < b) (blockedCells world m) :=
  List.Pairwise.filter _ (List.pairwise_lt_range _)

theorem addLayers_fold (n : Nat) (s : ASVONManager) :
    (List.range n).foldl (fun s _ => { s with myLayers := s.myLayers ++ [[]] }) s =
      { s with myLayers := s.myLayers ++ List.replicate n [] } := by
  induction n with
  | zero => simp
  | succ n ih =>
    rw [List.range_succ, List.foldl_append, ih]
    simp [List.replicate_succ']

theorem generateInit_eq (world : UWorld) (m : ASVONManager) :
    generateInit world m =
      { myVoxelPower := m.myVoxelPower, myOrigin := m.myOrigin, myExtent := m.myExtent,
        myNumLayers := m.myVoxelPower + 1,
        myBlockedIndices := blockedCells world m,
        myLayers := List.replicate (m.myVoxelPower + 1) [],
        myLeafNodes := List.replicate (leafCount (blockedCells world m).length) default } := by
  have hb : (FirstPassRasterize world
      { m with myBlockedIndices := [], myLayers := [], myNumLayers := m.myVoxelPower + 1 }
      ).myBlockedIndices = blockedCells world m := by
    simp only [FirstPassRasterize]
    rw [firstPass_fold, List.nil_append]
    exact (blockedCells_sorted world m).insertionSort_eq
  unfold generateInit
  dsimp only
  rw [addLayers_fold]
  simp only [AllocateLeafNodes, hb]
  simp [FirstPassRasterize, leafCount]

theorem generateInit_layer (world : UWorld) (m : ASVONManager) (K : Nat) :
    GetLayer (generateInit world m) K = [] := by
  rw [generateInit_eq]
  simp only [GetLayer, List.getD_eq_getElem?_getD]
  by_cases h : K < m.myVoxelPower + 1
  · simp [List.getElem?_replicate, h]
  · simp [List.getElem?_replicate, h]

theorem mem_blockedCells (world : UWorld) (m : ASVONManager) (j : Nat) :
    j ∈ blockedCells world m ↔
      j < nodeCount m 1 ∧ world (GetNodePosition m 1 j) (GetVoxelSize m 1 / 2) = true := by
  simp [blockedCells, List.mem_filter, div_eq_mul_inv]

theorem modifyAt_nil {α : Type} (i : Nat) (f : α → α) : modifyAt ([] : List α) i f = [] := rfl

theorem modifyAt_cons_zero {α : Type} (x : α) (xs : List α) (f : α → α) :
    modifyAt (x :: xs) 0 f = f x :: xs := by
  simp [modifyAt]

theorem modifyAt_cons_succ {α : Type} (x : α) (xs : List α) (i : Nat) (f : α → α) :
    modifyAt (x :: xs) (i + 1) f = x :: modifyAt xs i f := by
  unfold modifyAt
  simp only [List.getElem?_cons_succ]
  cases xs[i]? <;> simp

theorem map_modifyAt {α β : Type} (g : α → β) (f : α → α) (hf : ∀ x, g (f x) = g x) :
    ∀ (xs : List α) (i : Nat), (modifyAt xs i f).map g = xs.map g := by
  intro xs
  induction xs with
  | nil => intro i; rfl
  | cons x xs ih =>
    intro i
    cases i with
    | zero => simp [modifyAt_cons_zero, hf]
    | succ i => simp [modifyAt_cons_succ, ih]

theorem map_setNeighbour {β : Type} (g : SVONNode → β)
    (hg : ∀ (node : SVONNode) (l : List SVONLink), g { node with myNeighbours := l } = g node)
    (layer : List SVONNode) (i d : Nat) (link : SVONLink) :
    (setNeighbour layer i d link).map g = layer.map g :=
  map_modifyAt g _ (fun x => hg x _) layer i

theorem map_linkDirection {β : Type} (g : SVONNode → β)
    (hg : ∀ (node : SVONNode) (l : List SVONLink), g { node with myNeighbours := l } = g node)
    (aLayer maxCoord i : Nat) (acc : List SVONNode × Nat × Nat × Nat) (d : Nat) :
    (linkDirection aLayer maxCoord i acc d).1.map g = acc.1.map g := by
  unfold linkDirection
  dsimp only
  split <;> split <;> simp [map_setNeighbour g hg]

theorem map_linkNode {β : Type} (g : SVONNode → β)
    (hg : ∀ (node : SVONNode) (l : List SVONLink), g { node with myNeighbours := l } = g node)
    (aLayer maxCoord : Nat) (layer : List SVONNode) (i : Nat) :
    (linkNode aLayer maxCoord layer i).map g = layer.map g := by
  unfold linkNode
  dsimp only
  generalize morton3D_64_decode (nodeAt layer i).myCode = c
  have : ∀ (ds : List Nat) (acc : List SVONNode × Nat × Nat × Nat),
      (ds.foldl (linkDirection aLayer maxCoord i) acc).1.map g = acc.1.map g := by
    intro ds
    induction ds with
    | nil => intro acc; rfl
    | cons d ds ih => intro acc; rw [List.foldl_cons, ih, map_linkDirection g hg]
  exact this _ _

theorem map_linkNodes {β : Type} (g : SVONNode → β)
    (hg : ∀ (node : SVONNode) (l : List SVONLink), g { node with myNeighbours := l } = g node)
    (aLayer maxCoord : Nat) (is : List Nat) (layer : List SVONNode) :
    (is.foldl (linkNode aLayer maxCoord) layer).map g = layer.map g := by
  induction is generalizing layer with
  | nil => rfl
  | cons i is ih => rw [List.foldl_cons, ih, map_linkNode g hg]

theorem BuildNeighbourLinks_config (m : ASVONManager) (L : Nat) :
    config (BuildNeighbourLinks m L) = config m := config_setLayer _ _ _

theorem BuildNeighbourLinks_leaf (m : ASVONManager) (L : Nat) :
    (BuildNeighbourLinks m L).myLeafNodes = m.myLeafNodes := rfl

theorem BuildNeighbourLinks_map {β : Type} (g : SVONNode → β)
    (hg : ∀ (node : SVONNode) (l : List SVONLink), g { node with myNeighbours := l } = g node)
    (m : ASVONManager) (L K : Nat) :
    (GetLayer (BuildNeighbourLinks m L) K).map g = (GetLayer m K).map g := by
  unfold BuildNeighbourLinks
  dsimp only
  by_cases hK : L = K
  · subst hK
    by_cases hlen : L < m.myLayers.length
    · rw [GetLayer_setLayer_same _ _ _ hlen, map_linkNodes g hg]
    · have : setLayer m L ((List.range (GetLayer m L).length).foldl
          (linkNode L (GetNodesPerSide m L % 2 ^ 32).toNat) (GetLayer m L)) = m := by
        simp [setLayer, List.set_eq_of_length_le (Nat.le_of_not_lt hlen)]
      rw [this]
  · rw [GetLayer_setLayer_ne _ _ _ _ hK]

theorem linkLayers_config (ls : List Nat) (m : ASVONManager) :
    config (ls.foldl BuildNeighbourLinks m) = config m := by
  induction ls generalizing m with
  | nil => rfl
  | cons l ls ih => rw [List.foldl_cons, ih, BuildNeighbourLinks_config]

theorem linkLayers_leaf (ls : List Nat) (m : ASVONManager) :
    (ls.foldl BuildNeighbourLinks m).myLeafNodes = m.myLeafNodes := by
  induction ls generalizing m with
  | nil => rfl
  | cons l ls ih => rw [List.foldl_cons, ih, BuildNeighbourLinks_leaf]

theorem linkLayers_map {β : Type} (g : SVONNode → β)
    (hg : ∀ (node : SVONNode) (l : List SVONLink), g { node with myNeighbours := l } = g node)
    (ls : List Nat) (m : ASVONManager) (K : Nat) :
    (GetLayer (ls.foldl BuildNeighbourLinks m) K).map g = (GetLayer m K).map g := by
  induction ls generalizing m with
  | nil => rfl
  | cons l ls ih => rw [List.foldl_cons, ih, BuildNeighbourLinks_map g hg]

theorem config_generateInit (world : UWorld) (m : ASVONManager) :
    config (generateInit world m) =
      (m.myVoxelPower, m.myOrigin, m.myExtent, m.myVoxelPower + 1, blockedCells world m,
        m.myVoxelPower + 1) := by
  rw [generateInit_eq]
  simp [config]

theorem nodeCount_congr {m m1 : ASVONManager} (h : m1.myVoxelPower = m.myVoxelPower)
    (L : Nat) : nodeCount m1 L = nodeCount m L := by
  simp [nodeCount, GetNodesInLayer, h]

theorem toInt32_toNat (v : Nat) : (toInt32 v).toNat = if v < 2 ^ 31 then v else 0 := by
  unfold toInt32
  split
  · exact Int.toNat_ofNat v
  · rfl

theorem nodeCount_eq (m : ASVONManager) (L : Nat) :
    nodeCount m L =
      if L ≤ m.myVoxelPower ∧ 8 ^ (m.myVoxelPower - L) < 2 ^ 31 then 8 ^ (m.myVoxelPower - L)
      else 0 := by
  have e : (2 ^ (m.myVoxelPower - L)) ^ 3 = 8 ^ (m.myVoxelPower - L) := by
    rw [← pow_mul, mul_comm, pow_mul]
    norm_num
  unfold nodeCount GetNodesInLayer
  by_cases hL : L ≤ m.myVoxelPower
  · rw [if_pos hL, toInt32_toNat, e]
    by_cases hfit : 8 ^ (m.myVoxelPower - L) < 2 ^ 31
    · rw [if_pos hfit, if_pos ⟨hL, hfit⟩]
    · rw [if_neg hfit, if_neg (fun h => hfit h.2)]
  · rw [if_neg hL, if_neg (fun h => hL h.1)]
    rfl

theorem nodeCount_of_fit (m : ASVONManager) (hfit : 8 ^ m.myVoxelPower < 2 ^ 31) (L : Nat)
    (hL : L ≤ m.myVoxelPower) : nodeCount m L = 8 ^ (m.myVoxelPower - L) := by
  have hle : 8 ^ (m.myVoxelPower - L) ≤ 8 ^ m.myVoxelPower :=
    Nat.pow_le_pow_right (by norm_num) (Nat.sub_le _ _)
  rw [nodeCount_eq, if_pos ⟨hL, by omega⟩]

theorem GetNodesInLayer_congr {m m1 : ASVONManager} (h : m1.myVoxelPower = m.myVoxelPower)
    (L : Nat) : GetNodesInLayer m1 L = GetNodesInLayer m L := by
  simp [GetNodesInLayer, h]

theorem GetNodesInLayer_of_fit (m : ASVONManager) (hfit : 8 ^ m.myVoxelPower < 2 ^ 31)
    (L : Nat) (hL : L ≤ m.myVoxelPower) :
    GetNodesInLayer m L = ((8 ^ (m.myVoxelPower - L) : Nat) : Int) := by
  have e : (2 ^ (m.myVoxelPower - L)) ^ 3 = 8 ^ (m.myVoxelPower - L) := by
    rw [← pow_mul, mul_comm, pow_mul]
    norm_num
  have hle : 8 ^ (m.myVoxelPower - L) ≤ 8 ^ m.myVoxelPower :=
    Nat.pow_le_pow_right (by norm_num) (Nat.sub_le _ _)
  unfold GetNodesInLayer toInt32
  rw [if_pos hL, e, if_pos (by omega)]

theorem GetNodesInLayer_of_fit_layer (m : ASVONManager) (L : Nat) (hL : L ≤ m.myVoxelPower)
    (hfit : 8 ^ (m.myVoxelPower - L) < 2 ^ 31) :
    GetNodesInLayer m L = ((8 ^ (m.myVoxelPower - L) : Nat) : Int) := by
  have e : (2 ^ (m.myVoxelPower - L)) ^ 3 = 8 ^ (m.myVoxelPower - L) := by
    rw [← pow_mul, mul_comm, pow_mul]
    norm_num
  unfold GetNodesInLayer toInt32
  rw [if_pos hL, e, if_pos hfit]

theorem GetNodesInLayer_overflow (m : ASVONManager) (L : Nat) (hL : L ≤ m.myVoxelPower)
    (hbig : ¬ 8 ^ (m.myVoxelPower - L) < 2 ^ 31) : GetNodesInLayer m L = -(2 ^ 31) := by
  have e : (2 ^ (m.myVoxelPower - L)) ^ 3 = 8 ^ (m.myVoxelPower - L) := by
    rw [← pow_mul, mul_comm, pow_mul]
    norm_num
  unfold GetNodesInLayer toInt32
  rw [if_pos hL, e, if_neg hbig]

theorem nodeCount_pred (m : ASVONManager) (L : Nat) (h1 : 1 ≤ L)
    (h2 : L ≤ m.myVoxelPower) (hpos : 0 < nodeCount m (L - 1)) :
    nodeCount m (L - 1) = 8 * nodeCount m L := by
  have e : m.myVoxelPower - (L - 1) = (m.myVoxelPower - L) + 1 := by omega
  rw [nodeCount_eq] at hpos ⊢
  by_cases hfit : L - 1 ≤ m.myVoxelPower ∧ 8 ^ (m.myVoxelPower - (L - 1)) < 2 ^ 31
  · rw [if_pos hfit]
    have h8 : 8 ^ (m.myVoxelPower - (L - 1)) = 8 * 8 ^ (m.myVoxelPower - L) := by
      rw [e, pow_succ, mul_comm]
    have hfit2 : 8 ^ (m.myVoxelPower - L) < 2 ^ 31 := by
      have := hfit.2
      rw [h8] at this
      omega
    rw [nodeCount_eq, if_pos ⟨h2, hfit2⟩, h8]
  · rw [if_neg hfit] at hpos
    omega

theorem nodeCount_pred_of_fit (m : ASVONManager) (hfit : 8 ^ m.myVoxelPower < 2 ^ 31)
    (L : Nat) (h1 : 1 ≤ L) (h2 : L ≤ m.myVoxelPower) :
    nodeCount m (L - 1) = 8 * nodeCount m L := by
  apply nodeCount_pred m L h1 h2
  rw [nodeCount_of_fit m hfit (L - 1) (by omega)]
  exact Nat.pos_pow_of_pos _ (by norm_num)

theorem leafCount_zero : leafCount 0 = 0 := rfl

theorem leafCount_of_lt (n : Nat) (h : n * 8 < 2 ^ 31) : leafCount n = n * 8 := by
  unfold leafCount wrapInt32
  have h1 : ((n : Int) * 8 + 2 ^ 31) % 2 ^ 32 = (n : Int) * 8 + 2 ^ 31 := by
    apply Int.emod_eq_of_lt <;> omega
  rw [h1]
  omega

theorem lt_nodeCount_iff (m : ASVONManager) (L i : Nat) :
    i < nodeCount m L ↔ (i : Int) < GetNodesInLayer m L := by
  unfold nodeCount
  exact Int.lt_toNat

theorem GenInv.voxelPower {world : UWorld} {m : ASVONManager} {n : Nat} {s : ASVONManager}
    (h : GenInv world m n s) : s.myVoxelPower = m.myVoxelPower := by
  have := config_voxelPower h.cfg
  rw [this, generateInit_eq]

theorem GenInv.blocked {world : UWorld} {m : ASVONManager} {n : Nat} {s : ASVONManager}
    (h : GenInv world m n s) : s.myBlockedIndices = blockedCells world m := by
  have := config_blocked h.cfg
  rw [this, generateInit_eq]

theorem GenInv.length {world : UWorld} {m : ASVONManager} {n : Nat} {s : ASVONManager}
    (h : GenInv world m n s) : s.myLayers.length = m.myVoxelPower + 1 := by
  have := config_length h.cfg
  rw [this, generateInit_eq]
  simp

theorem GenInv.codes_lt {world : UWorld} {m : ASVONManager} {n : Nat} {s : ASVONManager}
    (h : GenInv world m n s) (L : Nat) (c : Nat) (hc : c ∈ layerCodes s L) :
    c < nodeCount m L := by
  by_cases hn : L < n
  · cases L with
    | zero =>
      rw [h.codes0 hn] at hc
      exact List.mem_range.mp (List.mem_filter.mp hc).1
    | succ L =>
      rw [h.codesUp (L + 1) (by omega) hn] at hc
      split at hc
      · exact List.mem_range.mp (List.mem_filter.mp hc).1
      · simp at hc
  · rw [h.empty L (by omega)] at hc
    simp at hc

theorem genInv_init (world : UWorld) (m : ASVONManager) :
    GenInv world m 0 (generateInit world m) where
  cfg := rfl
  leafLength := by rw [generateInit_eq]; simp
  empty := fun K _ => by simp [layerCodes, generateInit_layer]
  codes0 := fun h => absurd h (Nat.lt_irrefl 0)
  codesUp := fun L _ h => absurd h (Nat.not_lt_zero L)
  parent := fun L _ h => absurd h (Nat.not_lt_zero L)
  child := fun L _ h => absurd h (Nat.not_lt_zero L)
  child0 := by simp [layerChildren, generateInit_layer]

theorem layerCodes_eq_nil {s : ASVONManager} {K : Nat} (h : layerCodes s K = []) :
    GetLayer s K = [] := by
  unfold layerCodes at h
  exact List.map_eq_nil_iff.mp h

theorem genInv_step_zero (world : UWorld) (m : ASVONManager) (s : ASVONManager)
    (h : GenInv world m 0 s) : GenInv world m 1 (RasterizeLayer world s 0) := by
  rw [RasterizeLayer_zero]
  have hlen : 0 < s.myLayers.length := by rw [h.length]; omega
  have inv := layer0Inv_fold world s hlen (layerCodes_eq_nil (h.empty 0 (Nat.le_refl 0)))
    (nodeCount s 0)
  refine ⟨inv.cfg.trans h.cfg, inv.leafLength.trans h.leafLength, ?_, ?_, ?_, ?_, ?_, ?_⟩
  · intro K hK
    unfold layerCodes
    rw [inv.other K (by omega)]
    exact h.empty K (by omega)
  · intro _
    rw [inv.codes, h.blocked, nodeCount_congr h.voxelPower]
  · intro L h1 h2; omega
  · intro L h1 h2; omega
  · intro L h1 h2; omega
  · intro k f hk
    unfold layerChildren at hk
    rw [List.getElem?_map] at hk
    cases hnode : (GetLayer (layer0Fold world s (nodeCount s 0)).1 0)[k]? with
    | none => rw [hnode] at hk; simp at hk
    | some node =>
      rw [hnode] at hk
      simp only [Option.map_some', Option.some.injEq] at hk
      rw [← hk]
      exact inv.child k node hnode

theorem genInv_step_succ (world : UWorld) (m : ASVONManager) (s : ASVONManager) (n : Nat)
    (hn : 1 ≤ n) (hvp : n ≤ m.myVoxelPower) (h : GenInv world m n s) :
    GenInv world m (n + 1) (RasterizeLayer world s n) := by
  have hlen : n < s.myLayers.length := by rw [h.length]; omega
  have sp := upperSpec world s n hn hlen (layerCodes_eq_nil (h.empty n (Nat.le_refl n)))
  have hparents : ∀ K, K ≠ n → K ≠ n - 1 →
      layerParents (RasterizeLayer world s n) K = layerParents s K := by
    intro K h1 h2
    unfold layerParents
    rw [sp.other K h1 h2]
  have hNn : nodeCount s n = nodeCount m n := nodeCount_congr h.voxelPower n
  refine ⟨sp.cfg.trans h.cfg, ?_, ?_, ?_, ?_, ?_, ?_, ?_⟩
  · rw [sp.leaf]; exact h.leafLength
  · intro K hK
    rw [sp.codesFrame K (by omega)]
    exact h.empty K (by omega)
  · intro _
    rw [sp.codesFrame 0 (by omega)]
    exact h.codes0 (by omega)
  · intro L h1 h2
    by_cases hL : L = n
    · subst hL
      rw [sp.codes, sp.codesFrame (L - 1) (by omega), hNn]
    · rw [sp.codesFrame L hL, sp.codesFrame (L - 1) (by omega)]
      exact h.codesUp L h1 (by omega)
  · intro L h1 h2 hgt
    by_cases hL : L = n
    · subst hL
      rw [sp.codesFrame (L - 1) (by omega)] at hgt
      apply sp.parent hgt
      intro c hc
      have hlt := h.codes_lt (L - 1) c hc
      rw [nodeCount_pred m L h1 hvp (by omega)] at hlt
      rw [hNn, Nat.shiftRight_eq_div_pow]
      omega
    · rw [sp.codesFrame L hL, sp.codesFrame (L - 1) (by omega),
        hparents (L - 1) (by omega) (by omega)]
      rw [sp.codesFrame (L - 1) (by omega)] at hgt
      exact h.parent L h1 (by omega) hgt
  · intro L h1 h2
    by_cases hL : L = n
    · subst hL
      exact sp.child
    · rw [sp.codesFrame L hL, sp.codesFrame (L - 1) (by omega), sp.childrenFrame L hL]
      exact h.child L h1 (by omega)
  · rw [sp.childrenFrame 0 (by omega)]
    exact h.child0

theorem rasterizeLayers_succ (world : UWorld) (m : ASVONManager) (n : Nat) :
    rasterizeLayers world m (n + 1) = RasterizeLayer world (rasterizeLayers world m n) n := by
  simp [rasterizeLayers, List.range_succ, List.foldl_append]

theorem genInv_rasterizeLayers (world : UWorld) (m : ASVONManager) (n : Nat)
    (hn : n ≤ m.myVoxelPower + 1) : GenInv world m n (rasterizeLayers world m n) := by
  induction n with
  | zero => exact genInv_init world m
  | succ n ih =>
    rw [rasterizeLayers_succ]
    have h := ih (by omega)
    cases n with
    | zero => exact genInv_step_zero world m _ h
    | succ k => exact genInv_step_succ world m _ (k + 1) (by omega) (by omega) h

theorem GenInv.transfer {world : UWorld} {m : ASVONManager} {n : Nat} {s : ASVONManager}
    (h : GenInv world m n s) (s1 : ASVONManager) (hcfg : config s1 = config s)
    (hleaf : s1.myLeafNodes.length = s.myLeafNodes.length)
    (hc : ∀ K, layerCodes s1 K = layerCodes s K)
    (hp : ∀ K, layerParents s1 K = layerParents s K)
    (hch : ∀ K, layerChildren s1 K = layerChildren s K) : GenInv world m n s1 := by
  refine ⟨hcfg.trans h.cfg, hleaf.trans h.leafLength, ?_, ?_, ?_, ?_, ?_, ?_⟩
  · intro K hK; rw [hc]; exact h.empty K hK
  · intro h0; rw [hc]; exact h.codes0 h0
  · intro L h1 h2; rw [hc, hc]; exact h.codesUp L h1 h2
  · intro L h1 h2; rw [hc, hc, hp]; exact h.parent L h1 h2
  · intro L h1 h2; rw [hc, hc, hch]; exact h.child L h1 h2
  · rw [hch]; exact h.child0

theorem Generate_eq (world : UWorld) (m : ASVONManager) :
    Generate world m =
      (List.range (m.myVoxelPower + 1)).reverse.foldl BuildNeighbourLinks
        (rasterizeLayers world m (m.myVoxelPower + 1)) := by
  have h1 : (generateInit world m).myNumLayers = m.myVoxelPower + 1 := by
    rw [generateInit_eq]
  have h2 : (rasterizeLayers world m (m.myVoxelPower + 1)).myNumLayers = m.myVoxelPower + 1 := by
    have := config_numLayers (genInv_rasterizeLayers world m _ (Nat.le_refl _)).cfg
    rw [this, h1]
  unfold Generate
  dsimp only
  rw [h1, h2]

theorem genInv_Generate (world : UWorld) (m : ASVONManager) :
    GenInv world m (m.myVoxelPower + 1) (Generate world m) := by
  rw [Generate_eq]
  apply (genInv_rasterizeLayers world m _ (Nat.le_refl _)).transfer
  · exact linkLayers_config _ _
  · rw [linkLayers_leaf]
  · exact fun K => linkLayers_map (fun n => n.myCode) (fun _ _ => rfl) _ _ K
  · exact fun K => linkLayers_map (fun n => n.myParentIndex) (fun _ _ => rfl) _ _ K
  · exact fun K => linkLayers_map (fun n => n.myFirstChildIndex) (fun _ _ => rfl) _ _ K

theorem nodeAt_eq (l : List SVONNode) (a : Nat) (h : a < l.length) : l[a]? = some (nodeAt l a) := by
  simp [nodeAt, List.getElem?_eq_getElem h]

theorem layerCodes_getElem? (s : ASVONManager) (L a : Nat) (node : SVONNode)
    (h : (GetLayer s L)[a]? = some node) : (layerCodes s L)[a]? = some node.myCode := by
  simp [layerCodes, List.getElem?_map, h]

theorem mem_layerCodes (s : ASVONManager) (L i : Nat) :
    i ∈ layerCodes s L ↔ ∃ node ∈ GetLayer s L, node.myCode = i := by
  simp [layerCodes, List.mem_map]

theorem length_layerCodes (s : ASVONManager) (L : Nat) :
    (layerCodes s L).length = (GetLayer s L).length := by
  simp [layerCodes]

theorem GenInv.sorted {world : UWorld} {m : ASVONManager} {n : Nat} {s : ASVONManager}
    (h : GenInv world m n s) (L : Nat) : (layerCodes s L).Pairwise (fun a b => a < b) := by
  by_cases hn : L < n
  · cases L with
    | zero =>
      rw [h.codes0 hn]
      exact List.Pairwise.filter _ (List.pairwise_lt_range _)
    | succ L =>
      rw [h.codesUp (L + 1) (by omega) hn]
      split
      · exact List.Pairwise.filter _ (List.pairwise_lt_range _)
      · exact List.Pairwise.nil
  · rw [h.empty L (by omega)]
    exact List.Pairwise.nil

theorem GenInv.mem_codes0 {world : UWorld} {m : ASVONManager} {n : Nat} {s : ASVONManager}
    (h : GenInv world m n s) (hn : 0 < n) (i : Nat) :
    i ∈ layerCodes s 0 ↔ i < nodeCount m 0 ∧ (i >>> 3) ∈ blockedCells world m := by
  rw [h.codes0 hn]
  simp [List.mem_filter]

theorem memberCodes_iff (codes : List Nat) (i : Nat) :
    memberCodes codes i = true ↔ ∃ c ∈ codes, c >>> 3 >>> 3 = i >>> 3 := by
  simp [memberCodes]

theorem GenInv.mem_codesUp {world : UWorld} {m : ASVONManager} {n : Nat} {s : ASVONManager}
    (h : GenInv world m n s) (L : Nat) (h1 : 1 ≤ L) (h2 : L < n)
    (hgt : 1 < (layerCodes s (L - 1)).length) (i : Nat) :
    i ∈ layerCodes s L ↔
      i < nodeCount m L ∧ ∃ c ∈ layerCodes s (L - 1), c >>> 3 >>> 3 = i >>> 3 := by
  rw [h.codesUp L h1 h2, if_pos hgt, List.mem_filter, List.mem_range, memberCodes_iff]

theorem Generate_voxelPower (world : UWorld) (m : ASVONManager) :
    (Generate world m).myVoxelPower = m.myVoxelPower :=
  (genInv_Generate world m).voxelPower

theorem Generate_origin_extent (world : UWorld) (m : ASVONManager) :
    (Generate world m).myOrigin = m.myOrigin ∧ (Generate world m).myExtent = m.myExtent := by
  have h := (genInv_Generate world m).cfg
  rw [config_generateInit] at h
  simp only [config, Prod.mk.injEq] at h
  exact ⟨h.2.1, h.2.2.1⟩

theorem Generate_nodesInLayer (world : UWorld) (m : ASVONManager) (L : Nat) :
    nodeCount (Generate world m) L = nodeCount m L :=
  nodeCount_congr (Generate_voxelPower world m) L

/-- C2: after `Generate`, for every world and voxel power, in every layer (the
layers `0 .. voxelPower`; there are no others) the node codes are strictly
ascending along the array: for indices `a < b` of the layer, the code at `a` is
below the code at `b`. -/
theorem layer_sort_invariant (world : UWorld) (m : ASVONManager) (L : Nat) (a b : Nat)
    (hab : a < b)
    (hb : b < (GetLayer (Generate world m) L).length) :
    (nodeAt (GetLayer (Generate world m) L) a).myCode <
      (nodeAt (GetLayer (Generate world m) L) b).myCode := by
  have hs := (genInv_Generate world m).sorted L
  rw [List.pairwise_iff_getElem] at hs
  have hb1 : b < (layerCodes (Generate world m) L).length := by
    rw [length_layerCodes]; exact hb
  have ha1 : a < (layerCodes (Generate world m) L).length := by omega
  have := hs a b ha1 hb1 hab
  have ea := layerCodes_getElem? (Generate world m) L a _
    (nodeAt_eq (GetLayer (Generate world m) L) a (by omega))
  have eb := layerCodes_getElem? (Generate world m) L b _
    (nodeAt_eq (GetLayer (Generate world m) L) b hb)
  rw [List.getElem?_eq_getElem ha1] at ea
  rw [List.getElem?_eq_getElem hb1] at eb
  simp only [Option.some.injEq] at ea eb
  rw [← ea, ← eb]
  exact this

set_option maxRecDepth 100000 in
theorem layer_sort_invariant_witness :
    (2 < 5 ∧ 5 < (GetLayer (Generate allBlocked (demoManager 1)) 0).length) ∧
      (nodeAt (GetLayer (Generate allBlocked (demoManager 1)) 0) 2).myCode <
        (nodeAt (GetLayer (Generate allBlocked (demoManager 1)) 0) 5).myCode :=
  ⟨by decide, layer_sort_invariant allBlocked (demoManager 1) 0 2 5 (by decide) (by decide)⟩

/-- C4: after `Generate`, for a layer `L` with `1 ≤ L ≤ voxelPower` whose lower
layer holds more than one node, and a code `i` below `GetNodesInLayer(L)`, layer
`L` holds a node with code `i` exactly when some node of layer `L - 1` has a code
`c` with `c >> 3 >> 3 = i >> 3`. -/
theorem upper_layer_membership (world : UWorld) (m : ASVONManager) (L : Nat) (h1 : 1 ≤ L)
    (h2 : L ≤ m.myVoxelPower) (hgt : 1 < (GetLayer (Generate world m) (L - 1)).length)
    (i : Nat) (hi : i < GetNodesInLayer (Generate world m) L) :
    (∃ node ∈ GetLayer (Generate world m) L, node.myCode = i) ↔
      ∃ c ∈ GetLayer (Generate world m) (L - 1), c.myCode >>> 3 >>> 3 = i >>> 3 := by
  have h := genInv_Generate world m
  rw [← lt_nodeCount_iff, Generate_nodesInLayer] at hi
  rw [← mem_layerCodes, h.mem_codesUp L h1 (by omega) (by rw [length_layerCodes]; exact hgt)]
  constructor
  · rintro ⟨-, c, hc, he⟩
    obtain ⟨node, hnode, rfl⟩ := (mem_layerCodes _ _ _).mp hc
    exact ⟨node, hnode, he⟩
  · rintro ⟨node, hnode, he⟩
    exact ⟨hi, node.myCode, (mem_layerCodes _ _ _).mpr ⟨node, hnode, rfl⟩, he⟩

set_option maxRecDepth 100000 in
theorem upper_layer_membership_witness :
    (1 ≤ 1 ∧ 1 ≤ (demoManager 1).myVoxelPower ∧
        1 < (GetLayer (Generate allBlocked (demoManager 1)) (1 - 1)).length ∧
        ((0 : Nat) : Int) < GetNodesInLayer (Generate allBlocked (demoManager 1)) 1) ∧
      ((∃ node ∈ GetLayer (Generate allBlocked (demoManager 1)) 1, node.myCode = 0) ↔
        ∃ c ∈ GetLayer (Generate allBlocked (demoManager 1)) (1 - 1),
          c.myCode >>> 3 >>> 3 = 0 >>> 3) :=
  ⟨by decide, upper_layer_membership allBlocked (demoManager 1) 1 (by decide) (by decide)
    (by decide) 0 (by decide)⟩

theorem length_gt_one_of_mem {l : List Nat} {a b : Nat} (ha : a ∈ l) (hb : b ∈ l)
    (hab : a ≠ b) : 1 < l.length := by
  match l, ha, hb with
  | [], ha, _ => simp at ha
  | [x], ha, hb =>
    simp only [List.mem_singleton] at ha hb
    exact absurd (ha.trans hb.symm) hab
  | _ :: _ :: _, _, _ => simp

theorem shift3 (i : Nat) : i >>> 3 = i / 8 := by
  rw [Nat.shiftRight_eq_div_pow]

theorem GenInv.siblings {world : UWorld} {m : ASVONManager} {s : ASVONManager}
    (h : GenInv world m (m.myVoxelPower + 1) s) (L : Nat) (hL : L < m.myVoxelPower)
    (i k : Nat) (hi : i ∈ layerCodes s L) (hk : k >>> 3 = i >>> 3) : k ∈ layerCodes s L := by
  have hlt := h.codes_lt L i hi
  have hN := nodeCount_pred m (L + 1) (by omega) (by omega)
    (by rw [Nat.add_sub_cancel]; omega)
  simp only [Nat.add_sub_cancel] at hN
  have hklt : k < nodeCount m L := by
    rw [shift3, shift3] at hk
    omega
  cases L with
  | zero =>
    rw [h.mem_codes0 (by omega)] at hi ⊢
    exact ⟨hklt, hk ▸ hi.2⟩
  | succ L =>
    have hgt : 1 < (layerCodes s (L + 1 - 1)).length := by
      by_contra hngt
      rw [h.codesUp (L + 1) (by omega) (by omega), if_neg hngt] at hi
      simp at hi
    rw [h.mem_codesUp (L + 1) (by omega) (by omega) hgt] at hi ⊢
    exact ⟨hklt, hk ▸ hi.2⟩

theorem GenInv.parent_mem {world : UWorld} {m : ASVONManager} {s : ASVONManager}
    (h : GenInv world m (m.myVoxelPower + 1) s) (L : Nat) (h1 : 1 ≤ L)
    (h2 : L ≤ m.myVoxelPower) (hgt : 1 < (layerCodes s (L - 1)).length) (c : Nat)
    (hc : c ∈ layerCodes s (L - 1)) : c >>> 3 ∈ layerCodes s L := by
  rw [h.mem_codesUp L h1 (by omega) hgt]
  have hlt := h.codes_lt (L - 1) c hc
  rw [nodeCount_pred m L h1 h2 (by omega)] at hlt
  refine ⟨?_, c, hc, rfl⟩
  rw [shift3]
  omega

theorem GenInv.chain {world : UWorld} {m : ASVONManager} {s : ASVONManager}
    (h : GenInv world m (m.myVoxelPower + 1) s) (h0 : layerCodes s 0 ≠ []) (L : Nat)
    (hL : L < m.myVoxelPower) : 1 < (layerCodes s L).length := by
  induction L with
  | zero =>
    obtain ⟨i, hi⟩ := List.exists_mem_of_ne_nil _ h0
    have e1 : (8 * (i >>> 3)) >>> 3 = i >>> 3 := by simp only [shift3]; omega
    have e2 : (8 * (i >>> 3) + 1) >>> 3 = i >>> 3 := by simp only [shift3]; omega
    exact length_gt_one_of_mem (h.siblings 0 hL i _ hi e1) (h.siblings 0 hL i _ hi e2)
      (by omega)
  | succ L ih =>
    have hgt := ih (by omega)
    have hne : layerCodes s L ≠ [] := by
      intro hnil; rw [hnil] at hgt; simp at hgt
    obtain ⟨c, hc⟩ := List.exists_mem_of_ne_nil _ hne
    have hp := h.parent_mem (L + 1) (by omega) (by omega) hgt c hc
    have e1 : (8 * ((c >>> 3) >>> 3)) >>> 3 = (c >>> 3) >>> 3 := by
      simp only [shift3]; omega
    have e2 : (8 * ((c >>> 3) >>> 3) + 1) >>> 3 = (c >>> 3) >>> 3 := by
      simp only [shift3]; omega
    exact length_gt_one_of_mem (h.siblings (L + 1) hL _ _ hp e1)
      (h.siblings (L + 1) hL _ _ hp e2) (by omega)

theorem nodeCount_top (m : ASVONManager) : nodeCount m m.myVoxelPower = 1 := by
  rw [nodeCount_eq]
  simp

theorem GenInv.top {world : UWorld} {m : ASVONManager} {s : ASVONManager}
    (h : GenInv world m (m.myVoxelPower + 1) s) (h0 : layerCodes s 0 ≠ [])
    (hvp : 1 ≤ m.myVoxelPower) : layerCodes s m.myVoxelPower = [0] := by
  have hgt := h.chain h0 (m.myVoxelPower - 1) (by omega)
  have hne : layerCodes s (m.myVoxelPower - 1) ≠ [] := by
    intro hnil; rw [hnil] at hgt; simp at hgt
  obtain ⟨c, hc⟩ := List.exists_mem_of_ne_nil _ hne
  have hlt := h.codes_lt _ c hc
  rw [nodeCount_pred m _ hvp (Nat.le_refl _) (by omega), nodeCount_top] at hlt
  rw [h.codesUp _ hvp (by omega), if_pos hgt, nodeCount_top]
  have : memberCodes (layerCodes s (m.myVoxelPower - 1)) 0 = true := by
    rw [memberCodes_iff]
    refine ⟨c, hc, ?_⟩
    simp only [shift3]
    omega
  simp [List.range_succ, this]

theorem GenInv.zero_mem {world : UWorld} {m : ASVONManager} {s : ASVONManager}
    (h : GenInv world m (m.myVoxelPower + 1) s) (h0 : layerCodes s 0 ≠ [])
    (hvp : 1 ≤ m.myVoxelPower) : 0 ∈ layerCodes s (m.myVoxelPower - 1) := by
  have hgt := h.chain h0 (m.myVoxelPower - 1) (by omega)
  have hne : layerCodes s (m.myVoxelPower - 1) ≠ [] := by
    intro hnil; rw [hnil] at hgt; simp at hgt
  obtain ⟨c, hc⟩ := List.exists_mem_of_ne_nil _ hne
  have hlt := h.codes_lt _ c hc
  rw [nodeCount_pred m _ hvp (Nat.le_refl _) (by omega), nodeCount_top] at hlt
  apply h.siblings _ (by omega) c 0 hc
  simp only [shift3]
  omega

theorem GenInv.layer0_nonempty {world : UWorld} {m : ASVONManager} {s : ASVONManager}
    (h : GenInv world m (m.myVoxelPower + 1) s) (hvp : 1 ≤ m.myVoxelPower)
    (hfit : 8 ^ m.myVoxelPower < 2 ^ 31) (j : Nat)
    (hj : j ∈ blockedCells world m) : layerCodes s 0 ≠ [] := by
  have hmem : 8 * j ∈ layerCodes s 0 := by
    rw [h.mem_codes0 (by omega)]
    have hlt := ((mem_blockedCells world m j).mp hj).1
    have hN := nodeCount_pred_of_fit m hfit 1 (Nat.le_refl 1) hvp
    simp only [Nat.sub_self] at hN
    have e : (8 * j) >>> 3 = j := by simp only [shift3]; omega
    rw [e]
    exact ⟨by omega, hj⟩
  exact List.ne_nil_of_mem hmem

theorem getElem?_map_some {β : Type} (f : SVONNode → β) (l : List SVONNode) (j : Nat) (b : β)
    (h : (l.map f)[j]? = some b) : ∃ node, l[j]? = some node ∧ f node = b := by
  rw [List.getElem?_map] at h
  cases hnode : l[j]? with
  | none => rw [hnode] at h; simp at h
  | some node =>
    rw [hnode] at h
    simp only [Option.map_some', Option.some.injEq] at h
    exact ⟨node, rfl, h⟩

theorem GenInv.parent_node {world : UWorld} {m : ASVONManager} {n : Nat} {s : ASVONManager}
    (h : GenInv world m n s) (L : Nat) (h1 : 1 ≤ L) (h2 : L < n)
    (hgt : 1 < (GetLayer s (L - 1)).length) (c : SVONNode) (hc : c ∈ GetLayer s (L - 1)) :
    ∃ (p : Nat) (u : SVONNode), c.myParentIndex = (p : Int) ∧ (GetLayer s L)[p]? = some u ∧
      u.myCode = c.myCode >>> 3 := by
  obtain ⟨j, hj⟩ := List.mem_iff_getElem?.mp hc
  have hp := h.parent L h1 h2 (by rw [length_layerCodes]; exact hgt) j c.myCode
    (layerCodes_getElem? s (L - 1) j c hj)
  obtain ⟨p, hpar, hup⟩ := hp
  obtain ⟨u, hu, hcode⟩ := getElem?_map_some _ _ _ _ hup
  refine ⟨p, u, ?_, hu, hcode⟩
  unfold layerParents at hpar
  rw [List.getElem?_map, hj] at hpar
  simpa using hpar

theorem GenInv.child_node {world : UWorld} {m : ASVONManager} {n : Nat} {s : ASVONManager}
    (h : GenInv world m n s) (L : Nat) (h1 : 1 ≤ L) (h2 : L < n) (p : SVONNode)
    (hp : p ∈ GetLayer s L) :
    (∃ (j : Nat) (c : SVONNode), p.myFirstChildIndex = (j : Int) ∧
        (GetLayer s (L - 1))[j]? = some c ∧ c.myCode = 8 * p.myCode) ∨
      (8 * p.myCode ∉ layerCodes s (L - 1) ∧ p.myFirstChildIndex = -1) := by
  obtain ⟨q, hq⟩ := List.mem_iff_getElem?.mp hp
  have hch : (layerChildren s L)[q]? = some p.myFirstChildIndex := by
    simp [layerChildren, List.getElem?_map, hq]
  rcases h.child L h1 h2 q p.myCode p.myFirstChildIndex (layerCodes_getElem? s L q p hq) hch with
    ⟨j, hf, hj⟩ | hnone
  · left
    obtain ⟨c, hc, hcode⟩ := getElem?_map_some _ _ _ _ hj
    exact ⟨j, c, hf, hc, hcode⟩
  · right
    exact hnone

theorem ancestor_chain {world : UWorld} {m : ASVONManager} {s : ASVONManager}
    (h : GenInv world m (m.myVoxelPower + 1) s) (idx : Nat) (leaf : SVONNode)
    (hleaf : (GetLayer s 0)[idx]? = some leaf) (k : Nat) (hk : k ≤ m.myVoxelPower) :
    ∃ a, a ∈ GetLayer s k ∧ ancestor s k idx = some a ∧ a.myCode = leaf.myCode >>> (3 * k) := by
  have h0 : layerCodes s 0 ≠ [] :=
    List.ne_nil_of_mem ((mem_layerCodes s 0 _).mpr ⟨leaf, List.getElem?_mem hleaf, rfl⟩)
  induction k with
  | zero => exact ⟨leaf, List.getElem?_mem hleaf, hleaf, rfl⟩
  | succ k ih =>
    obtain ⟨a, hmem, hanc, hcode⟩ := ih (by omega)
    have hgt : 1 < (GetLayer s (k + 1 - 1)).length := by
      rw [← length_layerCodes]
      exact h.chain h0 k (by omega)
    obtain ⟨p, u, hp, hu, hucode⟩ := h.parent_node (k + 1) (by omega) (by omega) hgt a hmem
    refine ⟨u, List.getElem?_mem hu, ?_, ?_⟩
    · simp only [ancestor, hanc, hp]
      have : ¬ ((p : Int) < 0) := by omega
      simp [this, hu]
    · rw [hucode, hcode, ← Nat.shiftRight_add, Nat.mul_succ]

/-- C8: within `Generate`, for a layer `L` with `1 ≤ L ≤ voxelPower` whose lower
layer has more than one node, right after `RasterizeLayer(L)` and also at the end
of `Generate`, every node `c` of layer `L - 1` has a parent index that is an index
of layer `L`, and the layer-`L` node there has code `c.myCode >> 3`; and following
the parent indices `k ≤ voxelPower` times from a layer-0 node reaches a node of
layer `k` with code `leaf code >> 3k`. -/
theorem parent_link_correct (world : UWorld) (m : ASVONManager) :
    (∀ L, 1 ≤ L → L ≤ m.myVoxelPower →
      1 < (GetLayer (rasterizeLayers world m (L + 1)) (L - 1)).length →
      ∀ c ∈ GetLayer (rasterizeLayers world m (L + 1)) (L - 1),
        ∃ (p : Nat) (u : SVONNode), c.myParentIndex = (p : Int) ∧
          (GetLayer (rasterizeLayers world m (L + 1)) L)[p]? = some u ∧
          u.myCode = c.myCode >>> 3) ∧
    (∀ L, 1 ≤ L → L ≤ m.myVoxelPower → 1 < (GetLayer (Generate world m) (L - 1)).length →
      ∀ c ∈ GetLayer (Generate world m) (L - 1),
        ∃ (p : Nat) (u : SVONNode), c.myParentIndex = (p : Int) ∧
          (GetLayer (Generate world m) L)[p]? = some u ∧ u.myCode = c.myCode >>> 3) ∧
    (∀ (idx : Nat) (leaf : SVONNode), (GetLayer (Generate world m) 0)[idx]? = some leaf →
      ∀ k, k ≤ m.myVoxelPower →
        ∃ a, a ∈ GetLayer (Generate world m) k ∧ ancestor (Generate world m) k idx = some a ∧
          a.myCode = leaf.myCode >>> (3 * k)) := by
  refine ⟨?_, ?_, ?_⟩
  · intro L h1 h2 hgt c hc
    exact (genInv_rasterizeLayers world m (L + 1) (by omega)).parent_node L h1 (by omega) hgt c hc
  · intro L h1 h2 hgt c hc
    exact (genInv_Generate world m).parent_node L h1 (by omega) hgt c hc
  · intro idx leaf hleaf k hk
    exact ancestor_chain (genInv_Generate world m) idx leaf hleaf k hk

set_option maxRecDepth 100000 in
theorem parent_link_correct_witness :
    (1 ≤ 1 ∧ 1 ≤ (demoManager 1).myVoxelPower ∧
      1 < (GetLayer (rasterizeLayers allBlocked (demoManager 1) (1 + 1)) (1 - 1)).length ∧
      1 < (GetLayer (Generate allBlocked (demoManager 1)) (1 - 1)).length) ∧
    (∃ (p : Nat) (u : SVONNode),
      (nodeAt (GetLayer (Generate allBlocked (demoManager 1)) (1 - 1)) 5).myParentIndex = (p : Int) ∧
        (GetLayer (Generate allBlocked (demoManager 1)) 1)[p]? = some u ∧
        u.myCode = (nodeAt (GetLayer (Generate allBlocked (demoManager 1)) (1 - 1)) 5).myCode >>> 3) ∧
    (∃ a, a ∈ GetLayer (Generate allBlocked (demoManager 1)) 1 ∧
      ancestor (Generate allBlocked (demoManager 1)) 1 5 = some a ∧
      a.myCode = (nodeAt (GetLayer (Generate allBlocked (demoManager 1)) 0) 5).myCode >>> (3 * 1)) :=
  ⟨by decide,
    (parent_link_correct allBlocked (demoManager 1)).2.1 1 (by decide) (by decide) (by decide)
      (nodeAt (GetLayer (Generate allBlocked (demoManager 1)) (1 - 1)) 5)
      (List.getElem?_mem (nodeAt_eq _ 5 (by decide))),
    (parent_link_correct allBlocked (demoManager 1)).2.2 5 _ (nodeAt_eq _ 5 (by decide)) 1
      (by decide)⟩

/-- C9: after `Generate`, for every layer `L ≥ 1` and every node `p` of layer `L`
whose `myFirstChildIndex` was set (it is not the absent value `-1`), the index is
within layer `L - 1` and the layer-`(L-1)` node at that index has code exactly
`8 * p.myCode`. -/
theorem first_child_link_correct (world : UWorld) (m : ASVONManager) (L : Nat) (h1 : 1 ≤ L)
    (p : SVONNode) (hp : p ∈ GetLayer (Generate world m) L) (hset : p.myFirstChildIndex ≠ -1) :
    ∃ (j : Nat) (c : SVONNode), p.myFirstChildIndex = (j : Int) ∧
      j < (GetLayer (Generate world m) (L - 1)).length ∧
      (GetLayer (Generate world m) (L - 1))[j]? = some c ∧ c.myCode = 8 * p.myCode := by
  have h := genInv_Generate world m
  by_cases h2 : L < m.myVoxelPower + 1
  · rcases h.child_node L h1 h2 p hp with ⟨j, c, hf, hc, hcode⟩ | ⟨-, hf⟩
    · exact ⟨j, c, hf, (List.getElem?_eq_some_iff.mp hc).1, hc, hcode⟩
    · exact absurd hf hset
  · have := layerCodes_eq_nil (h.empty L (by omega))
    rw [this] at hp
    simp at hp

set_option maxRecDepth 100000 in
theorem first_child_link_correct_witness :
    (1 ≤ 1 ∧ (nodeAt (GetLayer (Generate allBlocked (demoManager 1)) 1) 0).myFirstChildIndex ≠ -1) ∧
      ∃ (j : Nat) (c : SVONNode),
        (nodeAt (GetLayer (Generate allBlocked (demoManager 1)) 1) 0).myFirstChildIndex = (j : Int) ∧
        j < (GetLayer (Generate allBlocked (demoManager 1)) (1 - 1)).length ∧
        (GetLayer (Generate allBlocked (demoManager 1)) (1 - 1))[j]? = some c ∧
        c.myCode = 8 * (nodeAt (GetLayer (Generate allBlocked (demoManager 1)) 1) 0).myCode :=
  ⟨by decide,
    first_child_link_correct allBlocked (demoManager 1) 1 (by decide)
      (nodeAt (GetLayer (Generate allBlocked (demoManager 1)) 1) 0)
      (List.getElem?_mem (nodeAt_eq _ 0 (by decide))) (by decide)⟩

/-- C10, amended: for every voxel power `≥ 1` with `8 ^ voxelPower < 2 ^ 31` (the
layer-0 node count fits `int32`) and every world in which at least one layer-1
cell is reported occupied by the first pass, after `Generate` every layer
`0 .. voxelPower` is non-empty, and the top layer holds exactly one node, with
code `0`, whose `myFirstChildIndex` is set and is the index of the node with code
`0` in layer `voxelPower - 1`. -/
theorem single_root_chain (world : UWorld) (m : ASVONManager) (hvp : 1 ≤ m.myVoxelPower)
    (hfit : 8 ^ m.myVoxelPower < 2 ^ 31)
    (j : Nat) (hj : j < GetNodesInLayer m 1)
    (hocc : world (GetNodePosition m 1 j) (GetVoxelSize m 1 / 2) = true) :
    (∀ L, L ≤ m.myVoxelPower → GetLayer (Generate world m) L ≠ []) ∧
      ∃ root, GetLayer (Generate world m) m.myVoxelPower = [root] ∧ root.myCode = 0 ∧
        ∃ (i : Nat) (c : SVONNode), root.myFirstChildIndex = (i : Int) ∧
          (GetLayer (Generate world m) (m.myVoxelPower - 1))[i]? = some c ∧ c.myCode = 0 := by
  have h := genInv_Generate world m
  rw [← lt_nodeCount_iff] at hj
  have h0 := h.layer0_nonempty hvp hfit j ((mem_blockedCells world m j).mpr ⟨hj, hocc⟩)
  have htop := h.top h0 hvp
  constructor
  · intro L hL hnil
    by_cases hlt : L < m.myVoxelPower
    · have := h.chain h0 L hlt
      rw [length_layerCodes, hnil] at this
      simp at this
    · have hL2 : L = m.myVoxelPower := by omega
      subst hL2
      simp [layerCodes, hnil] at htop
  · have htop1 := htop
    unfold layerCodes at htop1
    obtain ⟨root, hroot, hcode⟩ : ∃ root, GetLayer (Generate world m) m.myVoxelPower = [root] ∧
        root.myCode = 0 := by
      match hl : GetLayer (Generate world m) m.myVoxelPower with
      | [] => rw [hl] at htop1; simp at htop1
      | [root] => rw [hl] at htop1; exact ⟨root, rfl, by simpa using htop1⟩
      | _ :: _ :: _ => rw [hl] at htop1; simp at htop1
    refine ⟨root, hroot, hcode, ?_⟩
    have hmem : root ∈ GetLayer (Generate world m) m.myVoxelPower := by rw [hroot]; simp
    rcases h.child_node m.myVoxelPower hvp (by omega) root hmem with
      ⟨i, c, hf, hc, hccode⟩ | ⟨hnone, -⟩
    · exact ⟨i, c, hf, hc, by rw [hccode, hcode]⟩
    · rw [hcode] at hnone
      exact absurd (h.zero_mem h0 hvp) hnone

theorem farCorner_occupied :
    farCorner (GetNodePosition (demoManager 2) 1 7) (GetVoxelSize (demoManager 2) 1 / 2) = true := by
  simp [farCorner, GetNodePosition, GetVoxelSize, demoManager, morton3D_64_decode, deinterleave3,
    FVector.add, FVector.sub, FVector.splat]

theorem single_root_chain_witness :
    (1 ≤ (demoManager 2).myVoxelPower ∧ 8 ^ (demoManager 2).myVoxelPower < 2 ^ 31 ∧
        ((7 : Nat) : Int) < GetNodesInLayer (demoManager 2) 1 ∧
        farCorner (GetNodePosition (demoManager 2) 1 7) (GetVoxelSize (demoManager 2) 1 / 2)
          = true) ∧
      ((∀ L, L ≤ (demoManager 2).myVoxelPower →
          GetLayer (Generate farCorner (demoManager 2)) L ≠ []) ∧
        ∃ root, GetLayer (Generate farCorner (demoManager 2)) (demoManager 2).myVoxelPower = [root] ∧
          root.myCode = 0 ∧
          ∃ (i : Nat) (c : SVONNode), root.myFirstChildIndex = (i : Int) ∧
            (GetLayer (Generate farCorner (demoManager 2)) ((demoManager 2).myVoxelPower - 1))[i]?
              = some c ∧ c.myCode = 0) :=
  ⟨⟨by decide, by decide, by decide, farCorner_occupied⟩,
    single_root_chain farCorner (demoManager 2) (by decide) (by decide) 7 (by decide)
      farCorner_occupied⟩

set_option maxRecDepth 100000 in
/-- C5: in the fully occupied volume of voxel power 1, the layer-0 node at index 1
(code 1, coordinate (1,0,0)) ends with a valid link in direction 1 (−x) that
resolves to the node with code 1, the node itself, while the coordinate offset by
that direction is (0,0,0), whose code is 0. -/
theorem neighbour_link_soundness_fails :
    (nodeAt (GetLayer (Generate allBlocked (demoManager 1)) 0) 1).myCode = 1 ∧
      (nodeAt (GetLayer (Generate allBlocked (demoManager 1)) 0) 1).myNeighbours.getD 1
          SVONLink.invalid = SVONLink.node 0 1 ∧
      (GetNodeFromLink (Generate allBlocked (demoManager 1)) (SVONLink.node 0 1)).map
          (fun n => n.myCode) = some 1 ∧
      offsetCoordinate 1 1 = (0, 0, 0) ∧ morton3D_64_encode 0 0 0 = 0 := by
  decide

set_option maxRecDepth 100000 in
/-- C6: in the fully occupied volume of voxel power 1, the layer-0 node at index 1
(code 1) has the in-bounds offset coordinate (0,0,0) in direction 1, and the node
at index 0 has that code, yet the link in direction 1 is `(0, 1)` and not `(0, 0)`;
and the backward scan from index 1 for code 0 finds nothing, since it stops before
index 0. -/
theorem neighbour_link_completeness_fails :
    offsetCoordinate (nodeAt (GetLayer (Generate allBlocked (demoManager 1)) 0) 1).myCode 1
        = (0, 0, 0) ∧
      GetNodesPerSide (Generate allBlocked (demoManager 1)) 0 = 2 ∧
      (nodeAt (GetLayer (Generate allBlocked (demoManager 1)) 0) 0).myCode
        = morton3D_64_encode 0 0 0 ∧
      (nodeAt (GetLayer (Generate allBlocked (demoManager 1)) 0) 1).myNeighbours.getD 1
          SVONLink.invalid = SVONLink.node 0 1 ∧
      scanDown (GetLayer (Generate allBlocked (demoManager 1)) 0) 0 1 = none := by
  decide

set_option maxRecDepth 100000 in
/-- C7: in the fully occupied volume of voxel power 1, the layer-0 node at index 2
(code 2, coordinate (0,1,0)) has the offset coordinate (−1,1,0) in direction 1,
which is out of bounds, yet its link in direction 1 is the valid link `(0, 2)`
after `BuildNeighbourLinks`. -/
theorem out_of_bounds_link_valid :
    (nodeAt (GetLayer (Generate allBlocked (demoManager 1)) 0) 2).myCode = 2 ∧
      offsetCoordinate 2 1 = (-1, 1, 0) ∧
      (nodeAt (GetLayer (Generate allBlocked (demoManager 1)) 0) 2).myNeighbours.getD 1
          SVONLink.invalid = SVONLink.node 0 2 ∧
      (nodeAt (GetLayer (BuildNeighbourLinks (rasterizeLayers allBlocked (demoManager 1) 2) 0)
          0) 2).myNeighbours.getD 1 SVONLink.invalid = SVONLink.node 0 2 := by
  decide

/-! ## Scenarios, leaf masks, sibling groups and frames -/

theorem GenInv.empty_above {world : UWorld} {m : ASVONManager} {s : ASVONManager}
    (h : GenInv world m (m.myVoxelPower + 1) s) (L : Nat) (h1 : 1 ≤ L)
    (hle : (layerCodes s (L - 1)).length ≤ 1) : ∀ K, L ≤ K → layerCodes s K = [] := by
  have step : ∀ K, 1 ≤ K → (layerCodes s (K - 1)).length ≤ 1 → layerCodes s K = [] := by
    intro K hK hlen
    by_cases hlt : K < m.myVoxelPower + 1
    · rw [h.codesUp K hK hlt, if_neg (by omega)]
    · exact h.empty K (by omega)
  intro K hK
  induction K with
  | zero => omega
  | succ K ih =>
    by_cases hKL : L = K + 1
    · subst hKL; exact step _ h1 hle
    · have := ih (by omega)
      apply step (K + 1) (by omega)
      simp only [Nat.add_sub_cancel]
      rw [this]
      simp

theorem blockedCells_none (world : UWorld) (m : ASVONManager)
    (hw : ∀ p r, world p r = false) : blockedCells world m = [] := by
  simp [blockedCells, hw]

theorem rasterizeLayers_codes (world : UWorld) (m : ASVONManager) (j : Nat) :
    ∀ n, j + 1 ≤ n → n ≤ m.myVoxelPower + 1 →
      layerCodes (rasterizeLayers world m n) j = layerCodes (rasterizeLayers world m (j + 1)) j := by
  intro n
  induction n with
  | zero => intro h; omega
  | succ n ih =>
    intro h1 h2
    by_cases hn : n = j
    · subst hn; rfl
    · have hinv := genInv_rasterizeLayers world m n (by omega)
      have hlen : n < (rasterizeLayers world m n).myLayers.length := by rw [hinv.length]; omega
      have sp := upperSpec world (rasterizeLayers world m n) n (by omega) hlen
        (layerCodes_eq_nil (hinv.empty n (Nat.le_refl n)))
      rw [rasterizeLayers_succ, sp.codesFrame j (by omega)]
      exact ih (by omega) (by omega)

theorem Generate_codes (world : UWorld) (m : ASVONManager) (j : Nat)
    (hj : j ≤ m.myVoxelPower) :
    layerCodes (Generate world m) j = layerCodes (rasterizeLayers world m (j + 1)) j := by
  rw [Generate_eq]
  have : layerCodes ((List.range (m.myVoxelPower + 1)).reverse.foldl BuildNeighbourLinks
      (rasterizeLayers world m (m.myVoxelPower + 1))) j
      = layerCodes (rasterizeLayers world m (m.myVoxelPower + 1)) j :=
    linkLayers_map (fun n => n.myCode) (fun _ _ => rfl) _ _ j
  rw [this]
  exact rasterizeLayers_codes world m j _ (by omega) (Nat.le_refl _)

/-- C12: with a world that never reports occupancy, for every voxel power,
`Generate` leaves the blocked-index set empty, the leaf array empty and every
layer without nodes. -/
theorem empty_scene (world : UWorld) (m : ASVONManager) (hw : ∀ p r, world p r = false) :
    (Generate world m).myBlockedIndices = [] ∧ (Generate world m).myLeafNodes = [] ∧
      ∀ L, GetLayer (Generate world m) L = [] := by
  have h := genInv_Generate world m
  have hb := blockedCells_none world m hw
  refine ⟨by rw [h.blocked, hb], ?_, ?_⟩
  · have := h.leafLength
    rw [hb] at this
    exact List.length_eq_zero.mp (by simpa [leafCount_zero] using this)
  · have h0 : layerCodes (Generate world m) 0 = [] := by
      rw [h.codes0 (Nat.succ_pos _), hb]
      simp
    intro L
    apply layerCodes_eq_nil
    cases L with
    | zero => exact h0
    | succ L =>
      exact h.empty_above 1 (Nat.le_refl 1) (by rw [Nat.sub_self, h0]; simp) (L + 1) (by omega)

theorem empty_scene_witness :
    (∀ (p : FVector) (r : ℚ), noneBlocked p r = false) ∧
      ((Generate noneBlocked (demoManager 2)).myBlockedIndices = [] ∧
        (Generate noneBlocked (demoManager 2)).myLeafNodes = [] ∧
        ∀ L, GetLayer (Generate noneBlocked (demoManager 2)) L = []) :=
  ⟨fun _ _ => rfl, empty_scene noneBlocked (demoManager 2) (fun _ _ => rfl)⟩

/-- C13: inside `Generate`, for a layer `L` with `1 ≤ L ≤ voxelPower`, if layer
`L - 1` holds at most one node once it has been rasterised, then layer `L` and
every layer above it hold no node after `Generate`. -/
theorem early_termination (world : UWorld) (m : ASVONManager) (L : Nat) (h1 : 1 ≤ L)
    (h2 : L ≤ m.myVoxelPower)
    (hle : (GetLayer (rasterizeLayers world m L) (L - 1)).length ≤ 1) :
    ∀ K, L ≤ K → GetLayer (Generate world m) K = [] := by
  have h := genInv_Generate world m
  have hc := Generate_codes world m (L - 1) (by omega)
  have e : L - 1 + 1 = L := by omega
  rw [e] at hc
  intro K hK
  apply layerCodes_eq_nil
  apply h.empty_above L h1 _ K hK
  rw [hc, length_layerCodes]
  exact hle

set_option maxRecDepth 100000 in
theorem early_termination_witness :
    (1 ≤ 1 ∧ 1 ≤ (demoManager 2).myVoxelPower ∧
        (GetLayer (rasterizeLayers noneBlocked (demoManager 2) 1) (1 - 1)).length ≤ 1) ∧
      ∀ K, 1 ≤ K → GetLayer (Generate noneBlocked (demoManager 2)) K = [] :=
  ⟨by decide, early_termination noneBlocked (demoManager 2) 1 (by decide) (by decide)
    (by decide)⟩

theorem generateInit_congr (world : UWorld) (m m1 : ASVONManager)
    (hvp : m1.myVoxelPower = m.myVoxelPower) (ho : m1.myOrigin = m.myOrigin)
    (he : m1.myExtent = m.myExtent) : generateInit world m1 = generateInit world m := by
  have hb : blockedCells world m1 = blockedCells world m := by
    simp [blockedCells, nodeCount, GetNodesInLayer, GetNodePosition, GetVoxelSize, hvp, ho, he]
  rw [generateInit_eq, generateInit_eq, hb, hvp, ho, he]

theorem Generate_congr (world : UWorld) (m m1 : ASVONManager)
    (hvp : m1.myVoxelPower = m.myVoxelPower) (ho : m1.myOrigin = m.myOrigin)
    (he : m1.myExtent = m.myExtent) : Generate world m1 = Generate world m := by
  unfold Generate rasterizeLayers
  rw [generateInit_congr world m m1 hvp ho he]

/-- C15: for a fixed world, the whole state that `Generate` produces (blocked
indices, layer arrays with codes, positions, parent and child indices and
neighbour links, leaf masks) depends only on the voxel power, the origin and the
extent of the manager, not on its previous contents; and `Generate` applied to
the result of `Generate` gives the same state again. -/
theorem generate_idempotent (world : UWorld) (m : ASVONManager) :
    (∀ m1 : ASVONManager, m1.myVoxelPower = m.myVoxelPower → m1.myOrigin = m.myOrigin →
      m1.myExtent = m.myExtent → Generate world m1 = Generate world m) ∧
    Generate world (Generate world m) = Generate world m :=
  ⟨fun m1 hvp ho he => Generate_congr world m m1 hvp ho he,
    Generate_congr world m (Generate world m) (Generate_voxelPower world m)
      (Generate_origin_extent world m).1 (Generate_origin_extent world m).2⟩

theorem generate_idempotent_witness :
    (staleManager.myVoxelPower = (demoManager 1).myVoxelPower ∧
        staleManager.myOrigin = (demoManager 1).myOrigin ∧
        staleManager.myExtent = (demoManager 1).myExtent) ∧
      Generate allBlocked staleManager = Generate allBlocked (demoManager 1) :=
  ⟨⟨rfl, rfl, rfl⟩, (generate_idempotent allBlocked (demoManager 1)).1 staleManager rfl rfl rfl⟩

set_option maxRecDepth 100000 in
/-- C16: neighbour linking is not symmetric. In the fully occupied volume of voxel
power 1, the layer-0 node at index 0 has in direction 0 (+x) a link that resolves
to the node at index 1 of the same layer, while the link of that node in the
opposite direction 1 (−x) does not name index 0. -/
theorem neighbour_links_not_symmetric :
    ∃ (world : UWorld) (m : ASVONManager) (L a b d : Nat),
      d < 6 ∧ a < (GetLayer (Generate world m) L).length ∧
        b < (GetLayer (Generate world m) L).length ∧
        (nodeAt (GetLayer (Generate world m) L) a).myNeighbours.getD d SVONLink.invalid
          = SVONLink.node L b ∧
        (nodeAt (GetLayer (Generate world m) L) b).myNeighbours.getD (opposite d)
          SVONLink.invalid ≠ SVONLink.node L a :=
  ⟨allBlocked, demoManager 1, 0, 0, 1, 0, by decide⟩

theorem getD_of_map_eq {β : Type} (f : SVONNode → β) (l l1 : List SVONNode)
    (h : l1.map f = l.map f) (j : Nat) : f (nodeAt l1 j) = f (nodeAt l j) := by
  have := congrArg (fun x => x[j]?) h
  simp only [List.getElem?_map] at this
  simp only [nodeAt, List.getD_eq_getElem?_getD]
  cases h1 : l1[j]? <;> cases h2 : l[j]? <;> simp [h1, h2] at this ⊢
  exact this

theorem BuildNeighbourLinks_other (m : ASVONManager) (L K : Nat) (h : K ≠ L) :
    GetLayer (BuildNeighbourLinks m L) K = GetLayer m K := by
  unfold BuildNeighbourLinks
  exact GetLayer_setLayer_ne _ _ _ _ (Ne.symm h)

/-- C19: for every manager state and every layer index `L`, `BuildNeighbourLinks(L)`
leaves unchanged the blocked-index set, the leaf masks, the number of layers, the
number of nodes of every layer, every node's `myCode`, `myPosition`,
`myParentIndex` and `myFirstChildIndex`, and the whole node array (links
included) of every layer other than `L`. -/
theorem neighbour_linking_frame (m : ASVONManager) (L : Nat) :
    (BuildNeighbourLinks m L).myBlockedIndices = m.myBlockedIndices ∧
      (BuildNeighbourLinks m L).myLeafNodes = m.myLeafNodes ∧
      (BuildNeighbourLinks m L).myLayers.length = m.myLayers.length ∧
      (∀ K, (GetLayer (BuildNeighbourLinks m L) K).length = (GetLayer m K).length) ∧
      (∀ K j,
        (nodeAt (GetLayer (BuildNeighbourLinks m L) K) j).myCode
            = (nodeAt (GetLayer m K) j).myCode ∧
          (nodeAt (GetLayer (BuildNeighbourLinks m L) K) j).myPosition
            = (nodeAt (GetLayer m K) j).myPosition ∧
          (nodeAt (GetLayer (BuildNeighbourLinks m L) K) j).myParentIndex
            = (nodeAt (GetLayer m K) j).myParentIndex ∧
          (nodeAt (GetLayer (BuildNeighbourLinks m L) K) j).myFirstChildIndex
            = (nodeAt (GetLayer m K) j).myFirstChildIndex) ∧
      (∀ K, K ≠ L → GetLayer (BuildNeighbourLinks m L) K = GetLayer m K) := by
  refine ⟨config_blocked (BuildNeighbourLinks_config m L), BuildNeighbourLinks_leaf m L,
    config_length (BuildNeighbourLinks_config m L), ?_, ?_, ?_⟩
  · intro K
    have := congrArg List.length
      (BuildNeighbourLinks_map (fun n => n.myCode) (fun _ _ => rfl) m L K)
    simpa using this
  · intro K j
    exact ⟨getD_of_map_eq (fun n => n.myCode) _ _
        (BuildNeighbourLinks_map (fun n => n.myCode) (fun _ _ => rfl) m L K) j,
      getD_of_map_eq (fun n => n.myPosition) _ _
        (BuildNeighbourLinks_map (fun n => n.myPosition) (fun _ _ => rfl) m L K) j,
      getD_of_map_eq (fun n => n.myParentIndex) _ _
        (BuildNeighbourLinks_map (fun n => n.myParentIndex) (fun _ _ => rfl) m L K) j,
      getD_of_map_eq (fun n => n.myFirstChildIndex) _ _
        (BuildNeighbourLinks_map (fun n => n.myFirstChildIndex) (fun _ _ => rfl) m L K) j⟩
  · exact fun K hK => BuildNeighbourLinks_other m L K hK

set_option maxRecDepth 100000 in
/-- C20: for every layer with at least one node and every coordinate, `GetNodeAt`
returns the node at array index 0 of the layer, whatever the coordinate; in the
fully occupied volume of voxel power 1 the node returned for (1,0,0) has code 0,
while the code of (1,0,0) is 1 and the layer holds a node with that code. -/
theorem getNodeAt_ignores_coordinates :
    (∀ (m : ASVONManager) (aLayer aX aY aZ : Nat), GetLayer m aLayer ≠ [] →
      GetNodeAt m aLayer aX aY aZ = some (nodeAt (GetLayer m aLayer) 0)) ∧
    ((GetNodeAt (Generate allBlocked (demoManager 1)) 0 1 0 0).map (fun n => n.myCode) = some 0 ∧
      morton3D_64_encode 1 0 0 = 1 ∧
      (nodeAt (GetLayer (Generate allBlocked (demoManager 1)) 0) 1).myCode = 1) := by
  refine ⟨?_, by decide⟩
  intro m aLayer aX aY aZ hne
  unfold GetNodeAt
  exact nodeAt_eq _ 0 (List.length_pos.mpr hne)

set_option maxRecDepth 100000 in
theorem getNodeAt_ignores_coordinates_witness :
    GetLayer (Generate allBlocked (demoManager 1)) 0 ≠ [] ∧
      GetNodeAt (Generate allBlocked (demoManager 1)) 0 1 1 1
        = some (nodeAt (GetLayer (Generate allBlocked (demoManager 1)) 0) 0) :=
  ⟨List.ne_nil_of_length_pos (by decide),
    getNodeAt_ignores_coordinates.1 (Generate allBlocked (demoManager 1)) 0 1 1 1
      (List.ne_nil_of_length_pos (by decide))⟩

theorem modifyAt_id {α : Type} : ∀ (xs : List α) (i : Nat), modifyAt xs i (fun a => a) = xs := by
  intro xs
  induction xs with
  | nil => intro i; rfl
  | cons x xs ih =>
    intro i
    cases i with
    | zero => rw [modifyAt_cons_zero]
    | succ i => rw [modifyAt_cons_succ, ih]

theorem modifyAt_modifyAt {α : Type} (f g : α → α) :
    ∀ (xs : List α) (i : Nat), modifyAt (modifyAt xs i f) i g = modifyAt xs i (fun a => g (f a)) := by
  intro xs
  induction xs with
  | nil => intro i; rfl
  | cons x xs ih =>
    intro i
    cases i with
    | zero => simp only [modifyAt_cons_zero]
    | succ i => simp only [modifyAt_cons_succ, ih]

theorem getElem?_modifyAt {α : Type} (f : α → α) :
    ∀ (xs : List α) (i k : Nat),
      (modifyAt xs i f)[k]? = if k = i then (xs[k]?).map f else xs[k]? := by
  intro xs
  induction xs with
  | nil => intro i k; simp [modifyAt_nil]
  | cons x xs ih =>
    intro i k
    cases i with
    | zero =>
      rw [modifyAt_cons_zero]
      cases k with
      | zero => simp
      | succ k => simp
    | succ i =>
      rw [modifyAt_cons_succ]
      cases k with
      | zero => simp
      | succ k => simp [ih]

theorem rasterizeLeafCell_eq (world : UWorld) (m : ASVONManager) (o : FVector) (k : Int)
    (leaves : List SVONLeafNode) (i : Nat) :
    rasterizeLeafCell world m o k leaves i =
      modifyAt leaves k.toNat (fun leaf => fillLeafCell world m o leaf i) := by
  unfold rasterizeLeafCell fillLeafCell leafCellCentre
  dsimp only
  split
  · rfl
  · exact (modifyAt_id leaves k.toNat).symm

theorem rasterizeLeafCells_fold (world : UWorld) (m : ASVONManager) (o : FVector) (k : Int)
    (cells : List Nat) : ∀ leaves : List SVONLeafNode,
      cells.foldl (rasterizeLeafCell world m o k) leaves =
        modifyAt leaves k.toNat (fun leaf => cells.foldl (fillLeafCell world m o) leaf) := by
  induction cells with
  | nil => intro leaves; exact (modifyAt_id leaves k.toNat).symm
  | cons c cs ih =>
    intro leaves
    rw [List.foldl_cons, ih, rasterizeLeafCell_eq, modifyAt_modifyAt]
    rfl

theorem RasterizeLeafNode_eq (world : UWorld) (m : ASVONManager) (o : FVector) (k : Int) :
    (RasterizeLeafNode world m o k).myLeafNodes =
      modifyAt m.myLeafNodes k.toNat (fillLeaf world m o) := by
  unfold RasterizeLeafNode
  exact rasterizeLeafCells_fold world m o k (List.range 64) m.myLeafNodes

theorem SetNodeAt_testBit (leaf : SVONLeafNode) (x y z j : Nat) :
    (leaf.SetNodeAt x y z).myVoxelGrid.testBit j =
      (decide (j < 64) && (leaf.myVoxelGrid.testBit j || decide (morton3D_64_encode x y z = j))) := by
  simp only [SVONLeafNode.SetNodeAt, Nat.testBit_mod_two_pow, Nat.testBit_or, Nat.one_shiftLeft,
    Nat.testBit_two_pow]

set_option maxRecDepth 100000 in
theorem encode_decode_cell : ∀ i, i < 64 →
    morton3D_64_encode (morton3D_64_decode i).1 (morton3D_64_decode i).2.1
      (morton3D_64_decode i).2.2 = i := by
  decide

set_option maxRecDepth 100000 in
theorem encode_cell_lt : ∀ x, x < 4 → ∀ y, y < 4 → ∀ z, z < 4 →
    morton3D_64_encode x y z < 64 ∧ morton3D_64_decode (morton3D_64_encode x y z) = (x, y, z) := by
  decide

theorem fillLeafCell_testBit (world : UWorld) (m : ASVONManager) (o : FVector)
    (leaf : SVONLeafNode) (i j : Nat) (hi : i < 64) (hj : j < 64) :
    (fillLeafCell world m o leaf i).myVoxelGrid.testBit j =
      (leaf.myVoxelGrid.testBit j ||
        (decide (i = j) && world (leafCellCentre m o i) (GetVoxelSize m 0 * (1 / 4) * (1 / 2)))) := by
  unfold fillLeafCell
  dsimp only
  cases hw : world (leafCellCentre m o i) (GetVoxelSize m 0 * (1 / 4) * (1 / 2))
  · simp
  · simp [SetNodeAt_testBit, encode_decode_cell i hi, hj]

theorem fillLeafCells_testBit (world : UWorld) (m : ASVONManager) (o : FVector) (j : Nat)
    (hj : j < 64) (cells : List Nat) (hcells : ∀ i ∈ cells, i < 64) :
    ∀ leaf : SVONLeafNode,
      (cells.foldl (fillLeafCell world m o) leaf).myVoxelGrid.testBit j =
        (leaf.myVoxelGrid.testBit j ||
          cells.any (fun i => decide (i = j) &&
            world (leafCellCentre m o i) (GetVoxelSize m 0 * (1 / 4) * (1 / 2)))) := by
  induction cells with
  | nil => intro leaf; simp
  | cons c cs ih =>
    intro leaf
    rw [List.foldl_cons, ih (fun i hi => hcells i (List.mem_cons_of_mem _ hi)),
      fillLeafCell_testBit world m o leaf c j (hcells c (List.mem_cons_self _ _)) hj,
      List.any_cons, Bool.or_assoc]

theorem any_range_eq (p : Nat → Bool) (j n : Nat) (hj : j < n) :
    (List.range n).any (fun i => decide (i = j) && p i) = p j := by
  induction n with
  | zero => omega
  | succ n ih =>
    rw [List.range_succ, List.any_append]
    by_cases hjn : j = n
    · subst hjn
      have : (List.range j).any (fun i => decide (i = j) && p i) = false := by
        rw [List.any_eq_false]
        intro i hi
        have := List.mem_range.mp hi
        simp; omega
      simp [this]
    · rw [ih (by omega)]
      have : decide (n = j) = false := by simp; omega
      simp [this]

theorem fillLeaf_testBit (world : UWorld) (m : ASVONManager) (o : FVector)
    (leaf : SVONLeafNode) (j : Nat) (hj : j < 64) :
    (fillLeaf world m o leaf).myVoxelGrid.testBit j =
      (leaf.myVoxelGrid.testBit j ||
        world (leafCellCentre m o j) (GetVoxelSize m 0 * (1 / 4) * (1 / 2))) := by
  unfold fillLeaf
  rw [fillLeafCells_testBit world m o j hj (List.range 64) (fun i hi => List.mem_range.mp hi),
    any_range_eq _ j 64 hj]

theorem leafCellCentre_eq (m : ASVONManager) (o : FVector) (i : Nat) :
    leafCellCentre m o i =
      subCellCentre m o (morton3D_64_decode i).1 (morton3D_64_decode i).2.1
        (morton3D_64_decode i).2.2 := by
  simp only [leafCellCentre, subCellCentre, FVector.add, FVector.splat, FVector.mk.injEq]
  refine ⟨?_, ?_, ?_⟩ <;> ring

theorem leaf_radius_eq (m : ASVONManager) :
    GetVoxelSize m 0 * (1 / 4) * (1 / 2) = GetVoxelSize m 0 / 8 := by
  ring

theorem RasterizeLeafNode_testBit (world : UWorld) (m : ASVONManager) (o : FVector) (k : Nat)
    (leaf : SVONLeafNode) (hk : m.myLeafNodes[k]? = some leaf) (j : Nat) (hj : j < 64) :
    ∃ leaf1, (RasterizeLeafNode world m o (k : Int)).myLeafNodes[k]? = some leaf1 ∧
      leaf1.myVoxelGrid.testBit j =
        (leaf.myVoxelGrid.testBit j ||
          world (leafCellCentre m o j) (GetVoxelSize m 0 * (1 / 4) * (1 / 2))) := by
  refine ⟨fillLeaf world m o leaf, ?_, fillLeaf_testBit world m o leaf j hj⟩
  rw [RasterizeLeafNode_eq, getElem?_modifyAt]
  simp [hk]

/-- C14, as stated, fails: in a volume whose layer-0 voxel size is 1, with a world
that reports occupancy exactly for spheres of radius 1/4 (one quarter of the
layer-0 voxel size), the query the claim describes for sub-cell (0,0,0) reports
occupancy, yet `RasterizeLeafNode` leaves that sub-cell unset. -/
theorem leaf_query_radius_counterexample :
    GetVoxelSize oneLeafManager 0 = 1 ∧
      quarterRadiusWorld (subCellCentre oneLeafManager ⟨0, 0, 0⟩ 0 0 0)
        (GetVoxelSize oneLeafManager 0 / 4) = true ∧
      ((RasterizeLeafNode quarterRadiusWorld oneLeafManager ⟨0, 0, 0⟩ 0).myLeafNodes.getD 0
        default).GetNodeAt 0 0 0 = false := by
  have hv : GetVoxelSize oneLeafManager 0 = 1 := by
    simp [GetVoxelSize, oneLeafManager]
  refine ⟨hv, ?_, ?_⟩
  · simp [quarterRadiusWorld, hv]
  · obtain ⟨leaf1, h1, h2⟩ := RasterizeLeafNode_testBit quarterRadiusWorld oneLeafManager
      ⟨0, 0, 0⟩ 0 default rfl 0 (by decide)
    have h1 : (RasterizeLeafNode quarterRadiusWorld oneLeafManager ⟨0, 0, 0⟩ 0).myLeafNodes[0]?
        = some leaf1 := h1
    rw [List.getD_eq_getElem?_getD, h1]
    have he : morton3D_64_encode 0 0 0 = 0 := by decide
    simp only [Option.getD_some, SVONLeafNode.GetNodeAt, he, h2]
    have hd : (default : SVONLeafNode).myVoxelGrid.testBit 0 = false := by decide
    rw [hd, hv]
    simp [quarterRadiusWorld]

/-- C14, amended: for a leaf origin `o`, a leaf index inside the leaf array and
every sub-cell index `i < 64` with `(x, y, z) = decode(i)`, after
`RasterizeLeafNode` sub-cell `(x, y, z)` of the leaf mask is set exactly when it
was set before or the world reports occupancy for the sphere centred at
`o + (x + 1/2, y + 1/2, z + 1/2) * s`, `s = GetVoxelSize(0) / 4`, of radius
`GetVoxelSize(0) / 8` (half the sub-cell size); so a sub-cell is never cleared. -/
theorem leaf_rasterization_query (world : UWorld) (m : ASVONManager) (aOrigin : FVector)
    (k : Nat) (leaf : SVONLeafNode) (hk : m.myLeafNodes[k]? = some leaf) (i : Nat)
    (hi : i < 64) :
    ∃ leaf1, (RasterizeLeafNode world m aOrigin (k : Int)).myLeafNodes[k]? = some leaf1 ∧
      leaf1.GetNodeAt (morton3D_64_decode i).1 (morton3D_64_decode i).2.1
          (morton3D_64_decode i).2.2 =
        (leaf.GetNodeAt (morton3D_64_decode i).1 (morton3D_64_decode i).2.1
            (morton3D_64_decode i).2.2 ||
          world (subCellCentre m aOrigin (morton3D_64_decode i).1 (morton3D_64_decode i).2.1
            (morton3D_64_decode i).2.2) (GetVoxelSize m 0 / 8)) := by
  obtain ⟨leaf1, h1, h2⟩ := RasterizeLeafNode_testBit world m aOrigin k leaf hk i hi
  refine ⟨leaf1, h1, ?_⟩
  simp only [SVONLeafNode.GetNodeAt, encode_decode_cell i hi]
  rw [h2, leafCellCentre_eq, leaf_radius_eq]

theorem leaf_rasterization_query_witness :
    (oneLeafManager.myLeafNodes[0]? = some default ∧ 37 < 64) ∧
      ∃ leaf1, (RasterizeLeafNode quarterRadiusWorld oneLeafManager ⟨0, 0, 0⟩
          ((0 : Nat) : Int)).myLeafNodes[0]? = some leaf1 ∧
        leaf1.GetNodeAt (morton3D_64_decode 37).1 (morton3D_64_decode 37).2.1
            (morton3D_64_decode 37).2.2 =
          ((default : SVONLeafNode).GetNodeAt (morton3D_64_decode 37).1
              (morton3D_64_decode 37).2.1 (morton3D_64_decode 37).2.2 ||
            quarterRadiusWorld (subCellCentre oneLeafManager ⟨0, 0, 0⟩ (morton3D_64_decode 37).1
              (morton3D_64_decode 37).2.1 (morton3D_64_decode 37).2.2)
              (GetVoxelSize oneLeafManager 0 / 8)) :=
  ⟨⟨rfl, by decide⟩,
    leaf_rasterization_query quarterRadiusWorld oneLeafManager ⟨0, 0, 0⟩ 0 default rfl 37
      (by decide)⟩

theorem octets_append (a b : List Nat) : octets (a ++ b) = octets a ++ octets b := by
  induction a with
  | nil => rfl
  | cons q qs ih => simp [octets, ih]

theorem length_octets (qs : List Nat) : (octets qs).length = 8 * qs.length := by
  induction qs with
  | nil => rfl
  | cons q qs ih => simp [octets, octet, ih]; omega

theorem getElem?_octet (q k : Nat) (hk : k < 8) : (octet q)[k]? = some (8 * q + k) := by
  unfold octet
  interval_cases k <;> rfl

theorem getElem?_octets : ∀ (qs : List Nat) (k : Nat),
    (octets qs)[k]? = (qs[k / 8]?).map (fun q => 8 * q + k % 8) := by
  intro qs
  induction qs with
  | nil => intro k; simp [octets]
  | cons q qs ih =>
    intro k
    by_cases hk : k < 8
    · have h8 : (octet q).length = 8 := rfl
      rw [octets, List.getElem?_append_left (by rw [h8]; exact hk), getElem?_octet q k hk]
      have e1 : k / 8 = 0 := by omega
      have e2 : k % 8 = k := by omega
      simp [e1, e2]
    · have h8 : (octet q).length = 8 := rfl
      rw [octets, List.getElem?_append_right (by rw [h8]; omega), h8, ih]
      have e1 : k / 8 = (k - 8) / 8 + 1 := by omega
      have e2 : (k - 8) % 8 = k % 8 := by omega
      rw [e1, e2, List.getElem?_cons_succ]

theorem filter_octet (p : Nat → Bool) (n : Nat) :
    (octet n).filter (fun i => p (i >>> 3)) = if p n then octet n else [] := by
  have e : ∀ t, t < 8 → (8 * n + t) >>> 3 = n := by
    intro t ht; rw [shift3]; omega
  have e0 : (8 * n) >>> 3 = n := by rw [shift3]; omega
  cases hp : p n <;>
    simp [octet, List.filter_cons, e0, e 1, e 2, e 3, e 4, e 5, e 6, e 7, hp]

theorem range_octet (n : Nat) : List.range (8 * (n + 1)) = List.range (8 * n) ++ octet n := by
  have : 8 * (n + 1) = 8 * n + 8 := by ring
  rw [this, List.range_add]
  rfl

theorem filter_shift_range (p : Nat → Bool) (n : Nat) :
    (List.range (8 * n)).filter (fun i => p (i >>> 3)) = octets ((List.range n).filter p) := by
  induction n with
  | zero => rfl
  | succ n ih =>
    rw [range_octet, List.filter_append, ih, filter_octet, List.range_succ, List.filter_append,
      octets_append]
    cases hp : p n <;> simp [hp, octets]

theorem filter_mem_blockedCells (world : UWorld) (m : ASVONManager) :
    (List.range (nodeCount m 1)).filter (fun q => decide (q ∈ blockedCells world m))
      = blockedCells world m := by
  unfold blockedCells
  apply List.filter_congr
  intro q hq
  simp [List.mem_filter, List.mem_range.mp hq]

theorem GenInv.codes0_octets {world : UWorld} {m : ASVONManager} {s : ASVONManager}
    (h : GenInv world m (m.myVoxelPower + 1) s) (hvp : 1 ≤ m.myVoxelPower)
    (hfit : 8 ^ m.myVoxelPower < 2 ^ 31) :
    layerCodes s 0 = octets (blockedCells world m) := by
  have hN := nodeCount_pred_of_fit m hfit 1 (Nat.le_refl 1) hvp
  simp only [Nat.sub_self] at hN
  rw [h.codes0 (Nat.succ_pos _), hN,
    filter_shift_range (fun q => decide (q ∈ blockedCells world m)), filter_mem_blockedCells]

theorem GenInv.codes_octets {world : UWorld} {m : ASVONManager} {s : ASVONManager}
    (h : GenInv world m (m.myVoxelPower + 1) s) (L : Nat) (hL : L < m.myVoxelPower) :
    ∃ qs : List Nat, qs.Pairwise (fun a b => a < b) ∧ layerCodes s L = octets qs := by
  cases L with
  | zero =>
    by_cases hfit : 8 ^ m.myVoxelPower < 2 ^ 31
    · exact ⟨blockedCells world m, blockedCells_sorted world m,
        h.codes0_octets (by omega) hfit⟩
    · refine ⟨[], List.Pairwise.nil, ?_⟩
      have h0 : nodeCount m 0 = 0 := by
        rw [nodeCount_eq, if_neg (fun hh => hfit (by simpa using hh.2))]
      rw [h.codes0 (Nat.succ_pos _), h0]
      rfl
  | succ L =>
    by_cases hzero : nodeCount m (L + 1) = 0
    · refine ⟨[], List.Pairwise.nil, ?_⟩
      rw [h.codesUp (L + 1) (by omega) (by omega), hzero]
      split <;> rfl
    have hN := nodeCount_pred m (L + 2) (by omega) (by omega)
      (by rw [show L + 2 - 1 = L + 1 from rfl]; omega)
    simp only [Nat.add_sub_cancel] at hN
    rw [h.codesUp (L + 1) (by omega) (by omega)]
    split
    · refine ⟨(List.range (nodeCount m (L + 2))).filter
          (fun q => (layerCodes s (L + 1 - 1)).any (fun c => decide (c >>> 3 >>> 3 = q))),
        List.Pairwise.filter _ (List.pairwise_lt_range _), ?_⟩
      have e : L + 1 + 1 - 1 = L + 1 := rfl
      rw [show nodeCount m (L + 1) = 8 * nodeCount m (L + 2) from hN,
        ← filter_shift_range]
      rfl
    · exact ⟨[], List.Pairwise.nil, rfl⟩

theorem length_filter_range_lt (p : Nat → Bool) (n N : Nat) (hn : n < N) (hp : p n = true) :
    ((List.range n).filter p).length < ((List.range N).filter p).length := by
  have e : N = (n + 1) + (N - (n + 1)) := by omega
  rw [e, List.range_add, List.filter_append, List.length_append, List.range_succ,
    List.filter_append, List.length_append]
  simp [hp]
  omega

theorem generateInit_length (world : UWorld) (m : ASVONManager) :
    0 < (generateInit world m).myLayers.length := by
  rw [generateInit_eq]; simp

theorem generateInit_blocked (world : UWorld) (m : ASVONManager) :
    (generateInit world m).myBlockedIndices = blockedCells world m := by
  rw [generateInit_eq]

theorem generateInit_leafLength (world : UWorld) (m : ASVONManager) :
    (generateInit world m).myLeafNodes.length = leafCount (blockedCells world m).length := by
  rw [generateInit_eq]; simp

theorem blockedCells_leafCount (world : UWorld) (m : ASVONManager) (hvp : 1 ≤ m.myVoxelPower)
    (hfit : 8 ^ m.myVoxelPower < 2 ^ 31) :
    leafCount (blockedCells world m).length = (blockedCells world m).length * 8 := by
  apply leafCount_of_lt
  have hle : (blockedCells world m).length ≤ nodeCount m 1 := by
    unfold blockedCells
    exact (List.length_filter_le _ _).trans (by rw [List.length_range])
  have hN := nodeCount_pred_of_fit m hfit 1 (Nat.le_refl 1) hvp
  simp only [Nat.sub_self] at hN
  have h0 := nodeCount_of_fit m hfit 0 (Nat.zero_le _)
  simp only [Nat.sub_zero] at h0
  omega

theorem layer0_count (world : UWorld) (m : ASVONManager) (hvp : 1 ≤ m.myVoxelPower)
    (hfit : 8 ^ m.myVoxelPower < 2 ^ 31) :
    ((List.range (nodeCount m 0)).filter
      (fun i => decide ((i >>> 3) ∈ blockedCells world m))).length
      = 8 * (blockedCells world m).length := by
  have hN := nodeCount_pred_of_fit m hfit 1 (Nat.le_refl 1) hvp
  simp only [Nat.sub_self] at hN
  rw [hN, filter_shift_range (fun q => decide (q ∈ blockedCells world m)),
    filter_mem_blockedCells, length_octets]

theorem layer0Fold_leafIndex (world : UWorld) (m : ASVONManager) (hvp : 1 ≤ m.myVoxelPower)
    (hfit : 8 ^ m.myVoxelPower < 2 ^ 31) (n : Nat) (hn : n < nodeCount m 0)
    (hb : (n >>> 3) ∈ (layer0Fold world (generateInit world m) n).1.myBlockedIndices) :
    0 ≤ (layer0Fold world (generateInit world m) n).2 ∧
      (layer0Fold world (generateInit world m) n).2.toNat <
        (layer0Fold world (generateInit world m) n).1.myLeafNodes.length := by
  have inv := layer0Inv_fold world (generateInit world m) (generateInit_length world m)
    (generateInit_layer world m 0) n
  rw [config_blocked inv.cfg, generateInit_blocked] at hb
  have hc : (GetLayer (layer0Fold world (generateInit world m) n).1 0).length
      = ((List.range n).filter (fun i => decide ((i >>> 3) ∈ blockedCells world m))).length := by
    rw [← length_layerCodes, inv.codes, generateInit_blocked]
  have hlt := length_filter_range_lt (fun i => decide ((i >>> 3) ∈ blockedCells world m)) n
    (nodeCount m 0) hn (by simpa using hb)
  rw [layer0_count world m hvp hfit] at hlt
  rw [inv.counter, inv.leafLength, generateInit_leafLength,
    blockedCells_leafCount world m hvp hfit, hc]
  constructor
  · omega
  · simp only [Int.toNat_ofNat]
    omega

/-- C18, amended: for every voxel power `≥ 1` with `8 ^ voxelPower < 2 ^ 31` (the
layer-0 node count fits `int32`) and every world, after `Generate` the number of
layer-0 nodes is 8 times the size of the blocked-index set and equals the length
of the leaf array, which is the length `AllocateLeafNodes` gave it; the layer-0
node at array index `k` has `myFirstChildIndex = k`, an index inside the leaf
array; every leaf index that the layer-0 loop passes to `RasterizeLeafNode` is
inside the leaf array; and distinct layer-0 nodes have distinct leaf slots. -/
theorem leaf_slot_allocation (world : UWorld) (m : ASVONManager) (hvp : 1 ≤ m.myVoxelPower)
    (hfit : 8 ^ m.myVoxelPower < 2 ^ 31) :
    (GetLayer (Generate world m) 0).length = 8 * (Generate world m).myBlockedIndices.length ∧
      (Generate world m).myLeafNodes.length = (GetLayer (Generate world m) 0).length ∧
      (generateInit world m).myLeafNodes.length = (Generate world m).myLeafNodes.length ∧
      (∀ (k : Nat) (node : SVONNode), (GetLayer (Generate world m) 0)[k]? = some node →
        node.myFirstChildIndex = (k : Int) ∧ k < (Generate world m).myLeafNodes.length) ∧
      (∀ n : Nat, n < GetNodesInLayer m 0 →
        (n >>> 3) ∈ (layer0Fold world (generateInit world m) n).1.myBlockedIndices →
        0 ≤ (layer0Fold world (generateInit world m) n).2 ∧
          (layer0Fold world (generateInit world m) n).2.toNat <
            (layer0Fold world (generateInit world m) n).1.myLeafNodes.length) ∧
      (∀ (k k1 : Nat) (node node1 : SVONNode), (GetLayer (Generate world m) 0)[k]? = some node →
        (GetLayer (Generate world m) 0)[k1]? = some node1 → k ≠ k1 →
        node.myFirstChildIndex ≠ node1.myFirstChildIndex) := by
  have h := genInv_Generate world m
  have hcount : (GetLayer (Generate world m) 0).length = 8 * (blockedCells world m).length := by
    rw [← length_layerCodes, h.codes0_octets hvp hfit, length_octets]
  have hleaf := blockedCells_leafCount world m hvp hfit
  have hchild : ∀ (k : Nat) (node : SVONNode), (GetLayer (Generate world m) 0)[k]? = some node →
      node.myFirstChildIndex = (k : Int) := by
    intro k node hk
    apply h.child0 k
    simp [layerChildren, List.getElem?_map, hk]
  refine ⟨by rw [hcount, h.blocked], by rw [h.leafLength, hleaf, hcount]; omega,
    by rw [generateInit_leafLength, h.leafLength], ?_, ?_, ?_⟩
  · intro k node hk
    refine ⟨hchild k node hk, ?_⟩
    have := (List.getElem?_eq_some_iff.mp hk).1
    rw [h.leafLength, hleaf]
    omega
  · exact fun n hn hb =>
      layer0Fold_leafIndex world m hvp hfit n ((lt_nodeCount_iff m 0 n).mpr hn) hb
  · intro k k1 node node1 hk hk1 hne heq
    rw [hchild k node hk, hchild k1 node1 hk1] at heq
    exact hne (by exact_mod_cast heq)

set_option maxRecDepth 100000 in
theorem leaf_slot_allocation_witness :
    (1 ≤ (demoManager 1).myVoxelPower ∧ 8 ^ (demoManager 1).myVoxelPower < 2 ^ 31) ∧
      (GetLayer (Generate allBlocked (demoManager 1)) 0).length
        = 8 * (Generate allBlocked (demoManager 1)).myBlockedIndices.length ∧
      (nodeAt (GetLayer (Generate allBlocked (demoManager 1)) 0) 3).myFirstChildIndex = 3 ∧
      3 < (Generate allBlocked (demoManager 1)).myLeafNodes.length :=
  ⟨by decide, (leaf_slot_allocation allBlocked (demoManager 1) (by decide) (by decide)).1,
    ((leaf_slot_allocation allBlocked (demoManager 1) (by decide) (by decide)).2.2.2.1 3 _
      (nodeAt_eq _ 3 (by decide))).1,
    ((leaf_slot_allocation allBlocked (demoManager 1) (by decide) (by decide)).2.2.2.1 3 _
      (nodeAt_eq _ 3 (by decide))).2⟩

theorem octets_spec (qs : List Nat) (a v : Nat) (h : (octets qs)[a]? = some v) :
    qs[a / 8]? = some (v >>> 3) ∧ v % 8 = a % 8 := by
  rw [getElem?_octets] at h
  cases hq : qs[a / 8]? with
  | none => rw [hq] at h; simp at h
  | some q =>
    rw [hq] at h
    simp only [Option.map_some', Option.some.injEq] at h
    rw [shift3]
    constructor
    · congr 1; omega
    · omega

theorem octets_get (qs : List Nat) (a q t : Nat) (h : qs[a]? = some q) (ht : t < 8) :
    (octets qs)[8 * a + t]? = some (8 * q + t) := by
  rw [getElem?_octets]
  have e1 : (8 * a + t) / 8 = a := by omega
  have e2 : (8 * a + t) % 8 = t := by omega
  rw [e1, e2, h]
  rfl

theorem pairwise_lt_getElem?_inj (qs : List Nat) (hs : qs.Pairwise (fun a b => a < b))
    (a b v : Nat) (ha : qs[a]? = some v) (hb : qs[b]? = some v) : a = b := by
  rw [List.pairwise_iff_getElem] at hs
  obtain ⟨ha1, ha2⟩ := List.getElem?_eq_some_iff.mp ha
  obtain ⟨hb1, hb2⟩ := List.getElem?_eq_some_iff.mp hb
  rcases Nat.lt_trichotomy a b with hlt | heq | hgt
  · have := hs a b ha1 hb1 hlt
    omega
  · exact heq
  · have := hs b a hb1 ha1 hgt
    omega

theorem GenInv.sibling_indices {world : UWorld} {m : ASVONManager} {s : ASVONManager}
    (h : GenInv world m (m.myVoxelPower + 1) s) (L : Nat) (hL : L < m.myVoxelPower)
    (a : Nat) (node : SVONNode) (ha : (GetLayer s L)[a]? = some node) (t : Nat) (ht : t < 8) :
    ∃ sib, (GetLayer s L)[8 * (a / 8) + t]? = some sib ∧
      sib.myCode = 8 * (node.myCode >>> 3) + t := by
  obtain ⟨qs, -, hqs⟩ := h.codes_octets L hL
  have hc := layerCodes_getElem? s L a node ha
  rw [hqs] at hc
  have hget := octets_get qs (a / 8) _ t (octets_spec qs a _ hc).1 ht
  rw [← hqs] at hget
  exact getElem?_map_some _ _ _ _ hget

theorem GenInv.children_block {world : UWorld} {m : ASVONManager} {s : ASVONManager}
    (h : GenInv world m (m.myVoxelPower + 1) s) (L : Nat) (hL : L < m.myVoxelPower)
    (p : SVONNode) (hp : p ∈ GetLayer s (L + 1))
    (hc : ∃ c ∈ GetLayer s L, c.myCode >>> 3 = p.myCode) :
    ∃ f : Nat, p.myFirstChildIndex = (f : Int) ∧
      (∀ t, t < 8 → ∃ child, (GetLayer s L)[f + t]? = some child ∧
        child.myCode = 8 * p.myCode + t) ∧
      (∀ (idx : Nat) (node : SVONNode), (GetLayer s L)[idx]? = some node →
        (node.myCode >>> 3 = p.myCode ↔ f ≤ idx ∧ idx < f + 8)) := by
  obtain ⟨qs, hsorted, hqs⟩ := h.codes_octets L hL
  obtain ⟨c, hcmem, hcode⟩ := hc
  have hmem8 : 8 * p.myCode ∈ layerCodes s L := by
    apply h.siblings L hL c.myCode _ ((mem_layerCodes s L _).mpr ⟨c, hcmem, rfl⟩)
    rw [hcode, shift3]
    omega
  rcases h.child_node (L + 1) (by omega) (by omega) p hp with ⟨j, c0, hf, hj, hc0⟩ | ⟨hnone, -⟩
  · simp only [Nat.add_sub_cancel] at hj
    have hjc := layerCodes_getElem? s L j c0 hj
    rw [hqs, hc0] at hjc
    obtain ⟨hq, hmod⟩ := octets_spec qs j _ hjc
    have hj8 : j % 8 = 0 := by omega
    have hshift : (8 * p.myCode) >>> 3 = p.myCode := by rw [shift3]; omega
    rw [hshift] at hq
    refine ⟨j, hf, ?_, ?_⟩
    · intro t ht
      obtain ⟨sib, hsib, hsc⟩ := h.sibling_indices L hL j c0 hj t ht
      have e : 8 * (j / 8) + t = j + t := by omega
      rw [e] at hsib
      refine ⟨sib, hsib, ?_⟩
      rw [hsc, hc0, hshift]
    · intro idx node hidx
      have hic := layerCodes_getElem? s L idx node hidx
      rw [hqs] at hic
      obtain ⟨hq1, -⟩ := octets_spec qs idx _ hic
      constructor
      · intro hnode
        rw [hnode] at hq1
        have := pairwise_lt_getElem?_inj qs hsorted _ _ _ hq1 hq
        omega
      · intro hrange
        have e : idx / 8 = j / 8 := by omega
        rw [e, hq] at hq1
        exact (Option.some.inj hq1).symm
  · simp only [Nat.add_sub_cancel] at hnone
    exact absurd hmem8 hnone

/-- C17: after `Generate`, for every layer `L < voxelPower`: a node at array index
`a` of layer `L` has all eight nodes of its sibling group in the layer, with codes
`8 * (code >> 3) + t` at the consecutive indices `8 * (a / 8) + t`, `t = 0 .. 7`;
every node `p` of layer `L + 1` that has a child in layer `L` has its first-child
index set, its children are the nodes at indices `f .. f + 7` with codes
`8 * p.myCode .. 8 * p.myCode + 7`, and no other node of layer `L` is a child of
`p`; and the node count of layer `L` is a multiple of 8. -/
theorem sibling_groups_contiguous (world : UWorld) (m : ASVONManager) (L : Nat)
    (hL : L < m.myVoxelPower) :
    (∀ (a : Nat) (node : SVONNode), (GetLayer (Generate world m) L)[a]? = some node →
      ∀ t, t < 8 → ∃ sib, (GetLayer (Generate world m) L)[8 * (a / 8) + t]? = some sib ∧
        sib.myCode = 8 * (node.myCode >>> 3) + t) ∧
    (∀ p ∈ GetLayer (Generate world m) (L + 1),
      (∃ c ∈ GetLayer (Generate world m) L, c.myCode >>> 3 = p.myCode) →
      ∃ f : Nat, p.myFirstChildIndex = (f : Int) ∧
        (∀ t, t < 8 → ∃ child, (GetLayer (Generate world m) L)[f + t]? = some child ∧
          child.myCode = 8 * p.myCode + t) ∧
        (∀ (idx : Nat) (node : SVONNode), (GetLayer (Generate world m) L)[idx]? = some node →
          (node.myCode >>> 3 = p.myCode ↔ f ≤ idx ∧ idx < f + 8))) ∧
    8 ∣ (GetLayer (Generate world m) L).length := by
  have h := genInv_Generate world m
  refine ⟨fun a node ha t ht => h.sibling_indices L hL a node ha t ht,
    fun p hp hc => h.children_block L hL p hp hc, ?_⟩
  obtain ⟨qs, -, hqs⟩ := h.codes_octets L hL
  rw [← length_layerCodes, hqs, length_octets]
  exact Dvd.intro _ rfl

set_option maxRecDepth 100000 in
theorem sibling_groups_contiguous_witness :
    0 < (demoManager 1).myVoxelPower ∧
      (∃ sib, (GetLayer (Generate allBlocked (demoManager 1)) 0)[8 * (5 / 8) + 2]? = some sib ∧
        sib.myCode = 8 * ((nodeAt (GetLayer (Generate allBlocked (demoManager 1)) 0) 5).myCode
          >>> 3) + 2) ∧
      8 ∣ (GetLayer (Generate allBlocked (demoManager 1)) 0).length :=
  ⟨by decide,
    (sibling_groups_contiguous allBlocked (demoManager 1) 0 (by decide)).1 5 _
      (nodeAt_eq _ 5 (by decide)) 2 (by decide),
    (sibling_groups_contiguous allBlocked (demoManager 1) 0 (by decide)).2.2⟩

theorem GetVoxelSize_congr {m m1 : ASVONManager} (h : config m1 = config m) (L : Nat) :
    GetVoxelSize m1 L = GetVoxelSize m L := by
  simp only [config, Prod.mk.injEq] at h
  obtain ⟨h1, -, h3, -⟩ := h
  simp [GetVoxelSize, h1, h3]

theorem fillLeaf_of_voxelSize (world : UWorld) {m m1 : ASVONManager}
    (h : GetVoxelSize m1 0 = GetVoxelSize m 0) (o : FVector) (leaf : SVONLeafNode) :
    fillLeaf world m1 o leaf = fillLeaf world m o leaf := by
  have : fillLeafCell world m1 o = fillLeafCell world m o := by
    funext leaf i
    simp only [fillLeafCell, leafCellCentre, h]
  rw [fillLeaf, this]
  rfl

theorem fillLeaf_congr (world : UWorld) {m m1 : ASVONManager} (h : config m1 = config m)
    (o : FVector) (leaf : SVONLeafNode) : fillLeaf world m1 o leaf = fillLeaf world m o leaf :=
  fillLeaf_of_voxelSize world (GetVoxelSize_congr h 0) o leaf

theorem leafOrigin_congr {m m1 : ASVONManager} (h : config m1 = config m) (code : Nat) :
    leafOrigin m1 code = leafOrigin m code := by
  simp only [leafOrigin, GetVoxelSize_congr h, GetNodePosition_congr m m1 h]

theorem layer0Fold_leaves (world : UWorld) (m : ASVONManager) (hlen : 0 < m.myLayers.length)
    (hempty : GetLayer m 0 = [])
    (hfresh : ∀ k, k < m.myLeafNodes.length → m.myLeafNodes[k]? = some default) (n : Nat) :
    (∀ (k code : Nat), (layerCodes (layer0Fold world m n).1 0)[k]? = some code →
        k < m.myLeafNodes.length →
        (layer0Fold world m n).1.myLeafNodes[k]? =
          some (fillLeaf world m (leafOrigin m code) default)) ∧
      (∀ k, (GetLayer (layer0Fold world m n).1 0).length ≤ k → k < m.myLeafNodes.length →
        (layer0Fold world m n).1.myLeafNodes[k]? = some default) := by
  induction n with
  | zero =>
    constructor
    · intro k code hk
      simp [layer0Fold, layerCodes, hempty] at hk
    · intro k _ hk
      exact hfresh k hk
  | succ n ih =>
    obtain ⟨ihFilled, ihFresh⟩ := ih
    have inv := layer0Inv_fold world m hlen hempty n
    have hlen1 : 0 < (layer0Fold world m n).1.myLayers.length := by
      rw [config_length inv.cfg]; exact hlen
    rw [layer0Fold_succ, rasterizeLayer0Step_eq]
    by_cases hb : (n >>> 3) ∈ (layer0Fold world m n).1.myBlockedIndices
    · rw [if_pos hb]
      dsimp only
      have hlayer : GetLayer (setLayer (RasterizeLeafNode world (layer0Fold world m n).1
          ((GetNodePosition (layer0Fold world m n).1 0 n).sub
            (FVector.splat (GetVoxelSize (layer0Fold world m n).1 0 * (1 / 2))))
          (layer0Fold world m n).2) 0
          (GetLayer (layer0Fold world m n).1 0 ++
            [layer0Node (layer0Fold world m n).1 n (layer0Fold world m n).2])) 0
          = GetLayer (layer0Fold world m n).1 0 ++
            [layer0Node (layer0Fold world m n).1 n (layer0Fold world m n).2] :=
        GetLayer_setLayer_same _ _ _ hlen1
      have hleaves : (setLayer (RasterizeLeafNode world (layer0Fold world m n).1
          ((GetNodePosition (layer0Fold world m n).1 0 n).sub
            (FVector.splat (GetVoxelSize (layer0Fold world m n).1 0 * (1 / 2))))
          (layer0Fold world m n).2) 0
          (GetLayer (layer0Fold world m n).1 0 ++
            [layer0Node (layer0Fold world m n).1 n (layer0Fold world m n).2])).myLeafNodes
          = modifyAt (layer0Fold world m n).1.myLeafNodes
              (GetLayer (layer0Fold world m n).1 0).length
              (fillLeaf world m (leafOrigin m n)) := by
        rw [myLeafNodes_setLayer, RasterizeLeafNode_eq, inv.counter, Int.toNat_ofNat]
        have e : (GetNodePosition (layer0Fold world m n).1 0 n).sub
            (FVector.splat (GetVoxelSize (layer0Fold world m n).1 0 * (1 / 2)))
            = leafOrigin m n := leafOrigin_congr inv.cfg n
        rw [e]
        congr 1
        funext leaf
        exact fillLeaf_congr world inv.cfg _ leaf
      rw [hleaves]
      unfold layerCodes
      rw [hlayer]
      constructor
      · intro k code hk hkT
        rw [getElem?_modifyAt]
        rw [List.map_append] at hk
        by_cases hkc : k = (GetLayer (layer0Fold world m n).1 0).length
        · rw [if_pos hkc]
          rw [List.getElem?_append_right (by simp [hkc])] at hk
          have hk0 : k - (List.map (fun n => n.myCode) (GetLayer (layer0Fold world m n).1 0)).length
              = 0 := by simp [hkc]
          rw [hk0] at hk
          simp only [List.map_cons, List.map_nil, List.getElem?_cons_zero, Option.some.injEq,
            layer0Node] at hk
          rw [ihFresh k (by omega) hkT, ← hk]
          rfl
        · rw [if_neg hkc]
          have hmap : (List.map (fun n => n.myCode) (GetLayer (layer0Fold world m n).1 0)).length
              = (GetLayer (layer0Fold world m n).1 0).length := List.length_map _ _
          have hlt : k < (List.map (fun n => n.myCode) (GetLayer (layer0Fold world m n).1 0)).length := by
            by_contra hge
            rw [List.getElem?_append_right (by omega)] at hk
            rw [List.getElem?_eq_none
              (by simp only [List.length_map, List.length_singleton] at hge ⊢; omega)] at hk
            exact Option.noConfusion hk
          rw [List.getElem?_append_left hlt] at hk
          exact ihFilled k code hk hkT
      · intro k hk hkT
        rw [getElem?_modifyAt]
        simp only [List.length_append, List.length_singleton] at hk
        rw [if_neg (by omega)]
        exact ihFresh k (by omega) hkT
    · rw [if_neg hb]
      exact ⟨ihFilled, ihFresh⟩

theorem rasterizeLayers_leaf (world : UWorld) (m : ASVONManager) :
    ∀ n, 1 ≤ n → n ≤ m.myVoxelPower + 1 →
      (rasterizeLayers world m n).myLeafNodes = (rasterizeLayers world m 1).myLeafNodes := by
  intro n
  induction n with
  | zero => intro h; omega
  | succ n ih =>
    intro h1 h2
    by_cases hn : n = 0
    · subst hn; rfl
    · have hinv := genInv_rasterizeLayers world m n (by omega)
      have hlen : n < (rasterizeLayers world m n).myLayers.length := by rw [hinv.length]; omega
      have sp := upperSpec world (rasterizeLayers world m n) n (by omega) hlen
        (layerCodes_eq_nil (hinv.empty n (Nat.le_refl n)))
      rw [rasterizeLayers_succ, sp.leaf]
      exact ih (by omega) (by omega)

theorem generateInit_config_fields (world : UWorld) (m : ASVONManager) :
    (generateInit world m).myVoxelPower = m.myVoxelPower ∧
      (generateInit world m).myOrigin = m.myOrigin ∧
      (generateInit world m).myExtent = m.myExtent := by
  rw [generateInit_eq]
  exact ⟨rfl, rfl, rfl⟩

theorem fillLeaf_generateInit (world world1 : UWorld) (m : ASVONManager) (code : Nat) :
    fillLeaf world1 (generateInit world m) (leafOrigin (generateInit world m) code) default
      = fillLeaf world1 m (leafOrigin m code) default := by
  obtain ⟨h1, h2, h3⟩ := generateInit_config_fields world m
  have hv : ∀ L, GetVoxelSize (generateInit world m) L = GetVoxelSize m L := by
    intro L; simp only [GetVoxelSize, h1, h3]
  have ho : leafOrigin (generateInit world m) code = leafOrigin m code := by
    simp only [leafOrigin, GetNodePosition, hv, h2, h3]
  rw [ho]
  exact fillLeaf_of_voxelSize world1 (hv 0) _ _

theorem Generate_leaves (world : UWorld) (m : ASVONManager) (k code : Nat)
    (hk : (layerCodes (Generate world m) 0)[k]? = some code)
    (hkT : k < (Generate world m).myLeafNodes.length) :
    (Generate world m).myLeafNodes[k]? = some (fillLeaf world m (leafOrigin m code) default) := by
  have h := genInv_Generate world m
  have hleaf : (Generate world m).myLeafNodes = (rasterizeLayers world m 1).myLeafNodes := by
    rw [Generate_eq, linkLayers_leaf]
    exact rasterizeLayers_leaf world m _ (by omega) (Nat.le_refl _)
  have h1 : rasterizeLayers world m 1
      = (layer0Fold world (generateInit world m) (nodeCount (generateInit world m) 0)).1 := by
    rw [rasterizeLayers_succ]
    exact RasterizeLayer_zero world _
  have hfresh : ∀ j, j < (generateInit world m).myLeafNodes.length →
      (generateInit world m).myLeafNodes[j]? = some default := by
    intro j hj
    have hrep : (generateInit world m).myLeafNodes
        = List.replicate (leafCount (blockedCells world m).length) default := by
      rw [generateInit_eq]
    rw [hrep] at hj ⊢
    rw [List.length_replicate] at hj
    rw [List.getElem?_replicate, if_pos hj]
  have hfold := (layer0Fold_leaves world (generateInit world m) (generateInit_length world m)
    (generateInit_layer world m 0) hfresh (nodeCount (generateInit world m) 0)).1 k code
  rw [← h1] at hfold
  rw [Generate_codes world m 0 (Nat.zero_le _)] at hk
  rw [hleaf, hfold hk (by rw [generateInit_leafLength, ← h.leafLength]; exact hkT),
    fillLeaf_generateInit]

theorem blockedCells_all (world : UWorld) (m : ASVONManager)
    (hw : ∀ p r, world p r = true) : blockedCells world m = List.range (nodeCount m 1) := by
  simp [blockedCells, hw]

theorem octets_range (n : Nat) : octets (List.range n) = List.range (8 * n) := by
  have := filter_shift_range (fun _ => true) n
  simpa using this.symm

theorem nodeCount_zero (m : ASVONManager) (hfit : 8 ^ m.myVoxelPower < 2 ^ 31) :
    nodeCount m 0 = 8 ^ m.myVoxelPower :=
  nodeCount_of_fit m hfit 0 (Nat.zero_le _)

/-- C11, amended: for every voxel power `≥ 1` with `8 ^ voxelPower < 2 ^ 31` (the
layer-0 node count fits `int32`), with a world that always reports occupancy,
`Generate` gives layer 0 exactly `GetNodesInLayer(0) = 8 ^ voxelPower` nodes, whose
codes along the array are `0, 1, .., 8 ^ voxelPower - 1`, and the leaf mask at each
node's `myFirstChildIndex` has all 64 sub-cells `(x, y, z)` of `[0,4)^3` set. -/
theorem full_occupancy (world : UWorld) (m : ASVONManager) (hvp : 1 ≤ m.myVoxelPower)
    (hfit : 8 ^ m.myVoxelPower < 2 ^ 31) (hw : ∀ p r, world p r = true) :
    GetNodesInLayer (Generate world m) 0 = 8 ^ m.myVoxelPower ∧
      (GetLayer (Generate world m) 0).length = 8 ^ m.myVoxelPower ∧
      (GetLayer (Generate world m) 0).map (fun n => n.myCode) = List.range (8 ^ m.myVoxelPower) ∧
      (∀ (k : Nat) (node : SVONNode), (GetLayer (Generate world m) 0)[k]? = some node →
        ∃ leaf, (Generate world m).myLeafNodes[node.myFirstChildIndex.toNat]? = some leaf ∧
          ∀ x y z, x < 4 → y < 4 → z < 4 → leaf.GetNodeAt x y z = true) := by
  have h := genInv_Generate world m
  have hN := nodeCount_pred_of_fit m hfit 1 (Nat.le_refl 1) hvp
  simp only [Nat.sub_self] at hN
  have hcodes : layerCodes (Generate world m) 0 = List.range (8 ^ m.myVoxelPower) := by
    rw [h.codes0_octets hvp hfit, blockedCells_all world m hw, octets_range, ← hN,
      nodeCount_zero m hfit]
  have hlen : (GetLayer (Generate world m) 0).length = 8 ^ m.myVoxelPower := by
    rw [← length_layerCodes, hcodes, List.length_range]
  have hcount : GetNodesInLayer (Generate world m) 0 = 8 ^ m.myVoxelPower := by
    rw [GetNodesInLayer_congr (Generate_voxelPower world m),
      GetNodesInLayer_of_fit m hfit 0 (Nat.zero_le _)]
    simp
  refine ⟨hcount, hlen, hcodes, ?_⟩
  intro k node hk
  have hfc : node.myFirstChildIndex = (k : Int) := by
    apply h.child0 k
    simp [layerChildren, List.getElem?_map, hk]
  have hkT : k < (Generate world m).myLeafNodes.length := by
    have := (List.getElem?_eq_some_iff.mp hk).1
    rw [h.leafLength, blockedCells_leafCount world m hvp hfit, blockedCells_all world m hw,
      List.length_range]
    rw [hlen, ← nodeCount_zero m hfit, hN] at this
    omega
  refine ⟨fillLeaf world m (leafOrigin m node.myCode) default, ?_, ?_⟩
  · rw [hfc, Int.toNat_ofNat]
    exact Generate_leaves world m k node.myCode (layerCodes_getElem? _ 0 k node hk) hkT
  · intro x y z hx hy hz
    unfold SVONLeafNode.GetNodeAt
    rw [fillLeaf_testBit world m _ default _ (encode_cell_lt x hx y hy z hz).1, hw]
    simp

set_option maxRecDepth 100000 in
theorem full_occupancy_witness :
    (1 ≤ (demoManager 1).myVoxelPower ∧ 8 ^ (demoManager 1).myVoxelPower < 2 ^ 31 ∧
        ∀ (p : FVector) (r : ℚ), allBlocked p r = true) ∧
      (GetLayer (Generate allBlocked (demoManager 1)) 0).length = 8 ^ (demoManager 1).myVoxelPower ∧
      ∃ leaf, (Generate allBlocked (demoManager 1)).myLeafNodes[(nodeAt
          (GetLayer (Generate allBlocked (demoManager 1)) 0) 6).myFirstChildIndex.toNat]?
            = some leaf ∧
        ∀ x y z, x < 4 → y < 4 → z < 4 → leaf.GetNodeAt x y z = true :=
  ⟨⟨by decide, by decide, fun _ _ => rfl⟩,
    (full_occupancy allBlocked (demoManager 1) (by decide) (by decide) (fun _ _ => rfl)).2.1,
    (full_occupancy allBlocked (demoManager 1) (by decide) (by decide) (fun _ _ => rfl)).2.2.2 6 _
      (nodeAt_eq _ 6 (by decide))⟩

/-! ## Beyond the `int32` range

From `8 ^ voxelPower ≥ 2 ^ 31` on, `GetNodesInLayer(0)` is `INT_MIN`, the layer-0 loop of
`RasterizeLayer` runs zero times and every layer stays empty, whatever the first pass recorded. -/

theorem layers_empty_of_overflow (world : UWorld) (m : ASVONManager)
    (hbig : ¬ 8 ^ m.myVoxelPower < 2 ^ 31) (L : Nat) : GetLayer (Generate world m) L = [] := by
  have h := genInv_Generate world m
  have h0 : nodeCount m 0 = 0 := by
    rw [nodeCount_eq, if_neg]
    simpa using hbig
  have hc0 : layerCodes (Generate world m) 0 = [] := by
    rw [h.codes0 (Nat.succ_pos _), h0]
    rfl
  have hall : layerCodes (Generate world m) L = [] := by
    cases L with
    | zero => exact hc0
    | succ K =>
      exact h.empty_above 1 (Nat.le_refl 1) (by rw [Nat.sub_self, hc0]; simp) (K + 1) (by omega)
  simpa [layerCodes] using hall

theorem demo11_overflow : ¬ 8 ^ (demoManager 11).myVoxelPower < 2 ^ 31 := by
  show ¬ 8 ^ 11 < 2 ^ 31
  norm_num

theorem demo11_count :
    GetNodesInLayer (Generate allBlocked (demoManager 11)) 0 = -2147483648 := by
  rw [GetNodesInLayer_congr (Generate_voxelPower allBlocked (demoManager 11)),
    GetNodesInLayer_overflow (demoManager 11) 0 (Nat.zero_le _) demo11_overflow]
  norm_num

theorem demo11_blocked :
    (Generate allBlocked (demoManager 11)).myBlockedIndices = List.range (2 ^ 30) := by
  have hn : nodeCount (demoManager 11) 1 = 2 ^ 30 := by
    rw [nodeCount_eq]
    show (if 1 ≤ 11 ∧ 8 ^ (11 - 1) < 2 ^ 31 then 8 ^ (11 - 1) else 0) = 2 ^ 30
    norm_num
  rw [(genInv_Generate allBlocked (demoManager 11)).blocked,
    blockedCells_all allBlocked (demoManager 11) (fun _ _ => rfl), hn]

theorem demo11_leaves : (Generate allBlocked (demoManager 11)).myLeafNodes.length = 0 := by
  have hb := (genInv_Generate allBlocked (demoManager 11)).blocked
  rw [demo11_blocked] at hb
  rw [(genInv_Generate allBlocked (demoManager 11)).leafLength, ← hb, List.length_range]
  unfold leafCount wrapInt32
  norm_num

/-- C10, as first stated, fails at voxel power 11 with every cell occupied: the
layer-1 cell `0` is reported occupied by the first pass, but layer 0 is empty. -/
theorem single_root_chain_counterexample :
    1 ≤ (demoManager 11).myVoxelPower ∧
      ((0 : Nat) : Int) < GetNodesInLayer (demoManager 11) 1 ∧
      allBlocked (GetNodePosition (demoManager 11) 1 0)
        (GetVoxelSize (demoManager 11) 1 / 2) = true ∧
      0 ∈ (Generate allBlocked (demoManager 11)).myBlockedIndices ∧
      ¬ (∀ L, L ≤ (demoManager 11).myVoxelPower →
        GetLayer (Generate allBlocked (demoManager 11)) L ≠ []) := by
  refine ⟨by decide, ?_, rfl, ?_, ?_⟩
  · rw [GetNodesInLayer_of_fit_layer (demoManager 11) 1 (by decide) (by show 8 ^ (11 - 1) < 2 ^ 31; norm_num)]
    show ((0 : Nat) : Int) < ((8 ^ (11 - 1) : Nat) : Int)
    norm_num
  · rw [demo11_blocked, List.mem_range]
    norm_num
  · intro hall
    exact hall 0 (Nat.zero_le _)
      (layers_empty_of_overflow allBlocked (demoManager 11) demo11_overflow 0)

/-- C11, as first stated, fails at voxel power 11 with every cell occupied:
`GetNodesInLayer(0)` is `INT_MIN`, not `8 ^ 11`, and layer 0 holds no node. -/
theorem full_occupancy_counterexample :
    1 ≤ (demoManager 11).myVoxelPower ∧ (∀ (p : FVector) (r : ℚ), allBlocked p r = true) ∧
      GetNodesInLayer (Generate allBlocked (demoManager 11)) 0 ≠
        8 ^ (demoManager 11).myVoxelPower ∧
      (GetLayer (Generate allBlocked (demoManager 11)) 0).length ≠
        8 ^ (demoManager 11).myVoxelPower := by
  refine ⟨by decide, fun _ _ => rfl, ?_, ?_⟩
  · rw [demo11_count]
    show (-2147483648 : Int) ≠ 8 ^ 11
    norm_num
  · rw [layers_empty_of_overflow allBlocked (demoManager 11) demo11_overflow 0]
    show ([] : List SVONNode).length ≠ 8 ^ 11
    simp

/-- C18, as first stated, fails at voxel power 11 with every cell occupied: the
blocked-index set holds `2 ^ 30` indices, but layer 0 holds no node, and the `int32`
product `2 ^ 30 * 8` of `AllocateLeafNodes` wraps to a leaf array of length `0`. -/
theorem leaf_slot_allocation_counterexample :
    1 ≤ (demoManager 11).myVoxelPower ∧
      (Generate allBlocked (demoManager 11)).myBlockedIndices.length = 2 ^ 30 ∧
      (Generate allBlocked (demoManager 11)).myLeafNodes.length = 0 ∧
      (GetLayer (Generate allBlocked (demoManager 11)) 0).length ≠
        8 * (Generate allBlocked (demoManager 11)).myBlockedIndices.length := by
  refine ⟨by decide, by rw [demo11_blocked, List.length_range], demo11_leaves, ?_⟩
  rw [layers_empty_of_overflow allBlocked (demoManager 11) demo11_overflow 0, demo11_blocked,
    List.length_range]
  norm_num

end UESVON
